import Mathlib

/-!
Shallow embedding of the ADLB/X server data module (`lb/code/src`),
covering the typed value codec (`adlb_types.c`), the data store
(`data.c`) and the shard locator (`adlb.c:ADLB_Locate`), together with
proofs about the stated properties of these components.

Byte buffers are modelled as `List Nat` (each element one byte); C `int`
lengths are `Nat`s bounded by `intMax`; C `int64_t` values are `Int`s in
the two's-complement range.  Fallible C functions returning
`adlb_data_code` are modelled with `Except DataCode` / `Option`.
-/

namespace ExmLb

/-- `adlb_data_code` from `adlb-defs.h` (the error taxonomy of the data
module).  `SLOTS_NEGATIVE` in the `data.c` of this tree is the same enum
entry called `REFCOUNT_NEGATIVE` in `adlb-defs.h` ("Refcount fell below
0"). -/
inductive DataCode where
  | SUCCESS
  | ERROR_OOM
  | ERROR_DOUBLE_DECLARE
  | ERROR_DOUBLE_WRITE
  | ERROR_UNSET
  | ERROR_NOT_FOUND
  | ERROR_SUBSCRIPT_NOT_FOUND
  | ERROR_NUMBER_FORMAT
  | ERROR_INVALID
  | ERROR_NULL
  | ERROR_TYPE
  | ERROR_REFCOUNT_NEGATIVE
  | ERROR_LIMIT
  | ERROR_UNRESOLVED
  | BUFFER_TOO_SMALL
  | DONE
  | ERROR_UNKNOWN
  deriving DecidableEq, Repr

/-- `adlb_data_type` codes, in the declaration order of `adlb-defs.h`. -/
def typeNULL : Nat := 0
def typeINTEGER : Nat := 1
def typeFLOAT : Nat := 2
def typeSTRING : Nat := 3
def typeBLOB : Nat := 4
def typeCONTAINER : Nat := 5
def typeMULTISET : Nat := 6
def typeSTRUCT : Nat := 7
def typeREF : Nat := 8

/-- C `INT_MAX`: buffer lengths and entry counts in the codec are C
`int`s. -/
def intMax : Nat := 2 ^ 31 - 1

/-- C `LONG_MAX` (`int64_t`). -/
def longMax : Int := 2 ^ 63 - 1

/-- Modelled from the spec: `VINT_MAX_BYTES` of the `vint` utility
library (`vint.h` is not under `src/`): the fixed width to which the
"padded variable-int" length fields of compound payloads are padded.
Ten 7-bit groups cover every 64-bit length. -/
def vintMaxBytes : Nat := 10

/-- Modelled from the spec: `vint_encode` from the missing `vint.h`
("padded variable-int"): little-endian 7-bit groups, the high bit of a
byte set when more groups follow. -/
def vintEncode (n : Nat) : List Nat :=
  if h : n < 128 then [n]
  else (128 + n % 128) :: vintEncode (n / 128)
  decreasing_by exact Nat.div_lt_self (by omega) (by omega)

/-- Modelled from the spec: `vint_decode` from the missing `vint.h`.
Returns the decoded value together with the number of bytes consumed. -/
def vintDecode : List Nat → Option (Nat × Nat)
  | [] => none
  | b :: rest =>
    if b < 128 then some (b, 1)
    else match vintDecode rest with
      | none => none
      | some (v, c) => some (b % 128 + 128 * v, c + 1)

/-- The padded variable-int: the encoding zero-filled to
`VINT_MAX_BYTES` (`ADLB_Pack_buffer` reserves `VINT_MAX_BYTES`, packs,
then writes the actual length into the reserved space). -/
def vintPad (n : Nat) : List Nat :=
  vintEncode n ++ List.replicate (vintMaxBytes - (vintEncode n).length) 0

/-- Little-endian base-256 digits, fixed width `k`. -/
def natBytesLE : Nat → Nat → List Nat
  | 0, _ => []
  | k + 1, n => n % 256 :: natBytesLE k (n / 256)

/-- Read back a little-endian base-256 digit list. -/
def natFromBytesLE : List Nat → Nat
  | [] => 0
  | b :: rest => b + 256 * natFromBytesLE rest

/-- The 8 bytes of an `int64_t`, two's complement little-endian. -/
def int64ToBytes (i : Int) : List Nat := natBytesLE 8 (i % (2 ^ 64)).toNat

/-- Read back an `int64_t` from its 8 bytes. -/
def int64OfBytes (bs : List Nat) : Int :=
  let n := natFromBytesLE bs
  if n < 2 ^ 63 then (n : Int) else (n : Int) - 2 ^ 64

mutual
/-- `adlb_datum_storage` (the typed value union, as used by the codec in
`adlb_types.c`) restricted to the value types the codec serializes:
the scalars (integer, float, string, blob, ref) and the compound
container and multiset types.  Floats are kept as their 64-bit pattern
(the codec copies the 8 bytes verbatim); strings carry their full
stored bytes (terminator included); container keys are binary strings. -/
inductive Value where
  | integer (i : Int)
  | float (bits : Nat)
  | str (bytes : List Nat)
  | blob (bytes : List Nat)
  | ref (id : Int)
  | container (keyType valType : Nat) (entries : Entries)
  | multiset (elemType : Nat) (elems : Elems)

/-- The members of a container: an association list of binary key and
value, in table iteration order. -/
inductive Entries where
  | nil
  | cons (key : List Nat) (val : Value) (rest : Entries)

/-- The elements of a multiset, in chunk order. -/
inductive Elems where
  | nil
  | cons (val : Value) (rest : Elems)
end

mutual
def Value.beq : Value → Value → Bool
  | .integer a, .integer b => a == b
  | .float a, .float b => a == b
  | .str a, .str b => a == b
  | .blob a, .blob b => a == b
  | .ref a, .ref b => a == b
  | .container kt vt es, .container kt' vt' es' =>
      kt == kt' && vt == vt' && Entries.beq es es'
  | .multiset et el, .multiset et' el' => et == et' && Elems.beq el el'
  | _, _ => false

def Entries.beq : Entries → Entries → Bool
  | .nil, .nil => true
  | .cons k v r, .cons k' v' r' => k == k' && Value.beq v v' && Entries.beq r r'
  | _, _ => false

def Elems.beq : Elems → Elems → Bool
  | .nil, .nil => true
  | .cons v r, .cons v' r' => Value.beq v v' && Elems.beq r r'
  | _, _ => false
end

/-- Number of entries of a container value. -/
def Entries.count : Entries → Nat
  | .nil => 0
  | .cons _ _ rest => rest.count + 1

/-- Number of elements of a multiset value. -/
def Elems.count : Elems → Nat
  | .nil => 0
  | .cons _ rest => rest.count + 1

/-- `ADLB_pack_pad_size` from `adlb_types.c`: whether the vint length
field in front of a packed payload of this type is padded to
`VINT_MAX_BYTES`. -/
def ADLB_pack_pad_size (t : Nat) : Bool :=
  t == typeMULTISET || t == typeCONTAINER

/-- Modelled from the spec: `ADLB_Pack_integer` from the missing
`adlb_types.h`: "Integer (64-bit signed)", serialized as its raw
bytes (byte-exact round trip). -/
def ADLB_Pack_integer (i : Int) : List Nat := int64ToBytes i

/-- Modelled from the spec: `ADLB_Unpack_integer` from the missing
`adlb_types.h`: the payload must be exactly the 8 bytes of the value. -/
def ADLB_Unpack_integer (bs : List Nat) : Option Int :=
  if bs.length = 8 then some (int64OfBytes bs) else none

/-- Modelled from the spec: `ADLB_Pack_float` from the missing
`adlb_types.h`: Float (double), copied as its 8-byte pattern. -/
def ADLB_Pack_float (bits : Nat) : List Nat := natBytesLE 8 bits

/-- Modelled from the spec: `ADLB_Unpack_float` from the missing
`adlb_types.h`. -/
def ADLB_Unpack_float (bs : List Nat) : Option Nat :=
  if bs.length = 8 then some (natFromBytesLE bs) else none

/-- Modelled from the spec: `ADLB_Pack_string` from the missing
`adlb_types.h`: "String (length-prefixed bytes including terminator)" —
the payload is the stored bytes themselves. -/
def ADLB_Pack_string (bytes : List Nat) : List Nat := bytes

/-- Modelled from the spec: `ADLB_Unpack_string` from the missing
`adlb_types.h`: the bytes are "copied into freshly owned storage". -/
def ADLB_Unpack_string (bs : List Nat) : Option (List Nat) := some bs

/-- Modelled from the spec: `ADLB_Pack_blob`, as for strings. -/
def ADLB_Pack_blob (bytes : List Nat) : List Nat := bytes

/-- Modelled from the spec: `ADLB_Unpack_blob`, as for strings. -/
def ADLB_Unpack_blob (bs : List Nat) : Option (List Nat) := some bs

/-- Modelled from the spec: `ADLB_Pack_ref` from the missing
`adlb_types.h`: "Ref (a datum id)", a 64-bit signed id. -/
def ADLB_Pack_ref (id : Int) : List Nat := int64ToBytes id

/-- Modelled from the spec: `ADLB_Unpack_ref`. -/
def ADLB_Unpack_ref (bs : List Nat) : Option Int :=
  if bs.length = 8 then some (int64OfBytes bs) else none

/-- `ADLB_Pack_container_hdr` from `adlb_types.c`: vint key type, vint
value type, vint entry count. -/
def ADLB_Pack_container_hdr (elems keyType valType : Nat) : List Nat :=
  vintEncode keyType ++ vintEncode valType ++ vintEncode elems

/-- `ADLB_Pack_multiset_hdr` from `adlb_types.c`: vint element type,
vint element count. -/
def ADLB_Pack_multiset_hdr (elems elemType : Nat) : List Nat :=
  vintEncode elemType ++ vintEncode elems

mutual
/-- `ADLB_Pack` from `adlb_types.c`: serialize a value of the given
type.  Scalars are their raw bytes; container and multiset go through
the `ADLB_Pack_buffer` implementation with no top-level length prefix.
In C the storage is an untagged union interpreted at `type`; a tag
mismatch is undefined there and `none` here.  `none` also models the
`verbose_error` on an unknown type. -/
def ADLB_Pack : Nat → Value → Option (List Nat)
  | t, .integer i =>
      if t = typeINTEGER then some (ADLB_Pack_integer i) else none
  | t, .ref id => if t = typeREF then some (ADLB_Pack_ref id) else none
  | t, .float bits =>
      if t = typeFLOAT then some (ADLB_Pack_float bits) else none
  | t, .str bytes =>
      if t = typeSTRING then some (ADLB_Pack_string bytes) else none
  | t, .blob bytes =>
      if t = typeBLOB then some (ADLB_Pack_blob bytes) else none
  | t, .container kt vt es =>
      if t = typeCONTAINER then ADLB_Pack_container kt vt es else none
  | t, .multiset et el =>
      if t = typeMULTISET then ADLB_Pack_multiset et el else none
termination_by t v => (sizeOf v, 0)

/-- `ADLB_Pack_container` from `adlb_types.c`: header, then for each
member the length-prefixed key followed by the value packed through
`ADLB_Pack_buffer` with a length prefix. -/
def ADLB_Pack_container (kt vt : Nat) (es : Entries) :
    Option (List Nat) := do
  let body ← packMembers vt es
  some (ADLB_Pack_container_hdr es.count kt vt ++ body)
termination_by (sizeOf es, 1)

/-- The `TABLE_BP_FOREACH` loop body of `ADLB_Pack_container`:
`ADLB_Append_buffer` of the key (length-prefixed, no padding — the key
is passed with type `ADLB_DATA_TYPE_NULL`) then `ADLB_Pack_buffer` of
the member value. -/
def packMembers (vt : Nat) : Entries → Option (List Nat)
  | .nil => some []
  | .cons k v rest => do
    let vb ← ADLB_Pack_buffer vt true v
    let rb ← packMembers vt rest
    some (vintEncode k.length ++ k ++ vb ++ rb)
termination_by es => (sizeOf es, 0)

/-- `ADLB_Pack_multiset` from `adlb_types.c`: header, then every
element packed through `ADLB_Pack_buffer` with a length prefix. -/
def ADLB_Pack_multiset (et : Nat) (el : Elems) : Option (List Nat) := do
  let body ← packElems et el
  some (ADLB_Pack_multiset_hdr el.count et ++ body)
termination_by (sizeOf el, 1)

/-- The chunk loop of `ADLB_Pack_multiset`. -/
def packElems (et : Nat) : Elems → Option (List Nat)
  | .nil => some []
  | .cons v rest => do
    let vb ← ADLB_Pack_buffer et true v
    let rb ← packElems et rest
    some (vb ++ rb)
termination_by el => (sizeOf el, 0)

/-- `ADLB_Pack_buffer` from `adlb_types.c`: append a packed value to a
buffer.  For padded (compound) types a `VINT_MAX_BYTES` slot is
reserved and the actual body length written into it afterwards; for
other types the packed bytes are appended via `ADLB_Append_buffer`
with a plain vint length prefix. -/
def ADLB_Pack_buffer (t : Nat) (prefixLen : Bool) (v : Value) :
    Option (List Nat) :=
  if ADLB_pack_pad_size t then
    if t = typeCONTAINER then
      match v with
      | .container kt vt es => do
        let body ← ADLB_Pack_container kt vt es
        some (if prefixLen then vintPad body.length ++ body else body)
      | _ => none
    else
      match v with
      | .multiset et el => do
        let body ← ADLB_Pack_multiset et el
        some (if prefixLen then vintPad body.length ++ body else body)
      | _ => none
  else do
    let bytes ← ADLB_Pack t v
    some (if prefixLen then vintEncode bytes.length ++ bytes else bytes)
termination_by (sizeOf v, 1)
end

/-- `ADLB_Unpack_buffer` from `adlb_types.c`: read one length-prefixed
entry from the front of `buf`, returning the entry bytes and the
remaining buffer.  An exhausted buffer is `ADLB_DATA_DONE` (an error to
every caller in this development, hence `none`); the length must decode,
fit a C `int`, and not exceed the remaining bytes.  For padded types
the prefix occupies `VINT_MAX_BYTES` regardless of the vint's width. -/
def ADLB_Unpack_buffer (padded : Bool) (buf : List Nat) :
    Option (List Nat × List Nat) :=
  if buf.length = 0 then none
  else match vintDecode buf with
    | none => none
    | some (len, c) =>
      let paddedLen := if padded then vintMaxBytes else c
      if len ≤ intMax ∧ paddedLen + len ≤ buf.length then
        some ((buf.drop paddedLen).take len, buf.drop (paddedLen + len))
      else none

/-- `ADLB_Unpack_container_hdr` from `adlb_types.c`: decode the three
header vints (the type casts to C `int` must not truncate), returning
key type, value type, entry count and the rest of the buffer. -/
def ADLB_Unpack_container_hdr (buf : List Nat) :
    Option (Nat × Nat × Nat × List Nat) := do
  let (kt, c1) ← vintDecode buf
  if kt ≤ intMax then
    let b1 := buf.drop c1
    let (vt, c2) ← vintDecode b1
    if vt ≤ intMax then
      let b2 := b1.drop c2
      let (n, c3) ← vintDecode b2
      if n ≤ intMax then some (kt, vt, n, b2.drop c3) else none
    else none
  else none

/-- `ADLB_Unpack_multiset_hdr` from `adlb_types.c`: element type and
element count. -/
def ADLB_Unpack_multiset_hdr (buf : List Nat) :
    Option (Nat × Nat × List Nat) := do
  let (et, c1) ← vintDecode buf
  if et ≤ intMax then
    let b1 := buf.drop c1
    let (n, c2) ← vintDecode b1
    if n ≤ intMax then some (et, n, b1.drop c2) else none
  else none

/-- The entry loop of `ADLB_Unpack_container` from `adlb_types.c`: each
iteration is an `ADLB_Unpack_container_entry` (key without padding,
value padded according to the value type) followed by a recursive
`ADLB_Unpack` of the value bytes — the recursive unpack is passed in as
`unp` so that the loop is structural. -/
def unpackMembersWith (unp : Nat → List Nat → Option Value) :
    Nat → Nat → List Nat → Option Entries
  | 0, _, _ => some .nil
  | n + 1, vt, buf => do
    let (key, r1) ← ADLB_Unpack_buffer false buf
    let (valBytes, r2) ← ADLB_Unpack_buffer (ADLB_pack_pad_size vt) r1
    let v ← unp vt valBytes
    let rest ← unpackMembersWith unp n vt r2
    some (.cons key v rest)

/-- The element loop of `ADLB_Unpack_multiset` from `adlb_types.c`:
each iteration is an `ADLB_Unpack_multiset_entry` followed by
`xlb_multiset_add` of the recursively unpacked element. -/
def unpackElemsWith (unp : Nat → List Nat → Option Value) :
    Nat → Nat → List Nat → Option Elems
  | 0, _, _ => some .nil
  | n + 1, et, buf => do
    let (elemBytes, r1) ← ADLB_Unpack_buffer (ADLB_pack_pad_size et) buf
    let v ← unp et elemBytes
    let rest ← unpackElemsWith unp n et r1
    some (.cons v rest)

/-- `ADLB_Unpack_container` from `adlb_types.c`: decode the header and
then the announced number of key/value pairs (trailing bytes are not
inspected, as in the C loop). -/
def ADLB_Unpack_container (unp : Nat → List Nat → Option Value)
    (buf : List Nat) : Option Value := do
  let (kt, vt, n, body) ← ADLB_Unpack_container_hdr buf
  let es ← unpackMembersWith unp n vt body
  some (.container kt vt es)

/-- `ADLB_Unpack_multiset` from `adlb_types.c`. -/
def ADLB_Unpack_multiset (unp : Nat → List Nat → Option Value)
    (buf : List Nat) : Option Value := do
  let (et, n, body) ← ADLB_Unpack_multiset_hdr buf
  let el ← unpackElemsWith unp n et body
  some (.multiset et el)

/-- `ADLB_Unpack` / `ADLB_Unpack2` from `adlb_types.c`, with a fuel
argument making the buffer-length-bounded C recursion structural (the
wrapper `ADLB_Unpack` below supplies fuel that can never run out: every
nesting level consumes at least one prefix byte).  Compound values are
unpacked with `init_compound = true` (fresh members, as in `ADLB_Unpack`
itself). -/
def unpackFueled : Nat → Nat → List Nat → Option Value
  | 0, _, _ => none
  | fuel + 1, t, buf =>
    if t = typeINTEGER then (ADLB_Unpack_integer buf).map .integer
    else if t = typeREF then (ADLB_Unpack_ref buf).map .ref
    else if t = typeFLOAT then (ADLB_Unpack_float buf).map .float
    else if t = typeSTRING then (ADLB_Unpack_string buf).map .str
    else if t = typeBLOB then (ADLB_Unpack_blob buf).map .blob
    else if t = typeCONTAINER then
      ADLB_Unpack_container (unpackFueled fuel) buf
    else if t = typeMULTISET then
      ADLB_Unpack_multiset (unpackFueled fuel) buf
    else none

/-- `ADLB_Unpack` from `adlb_types.c` (no fuel in C; recursion is
bounded by the buffer because every nested payload sits behind at least
one prefix byte, so `length + 1` fuel cannot run out). -/
def ADLB_Unpack (t : Nat) (buf : List Nat) : Option Value :=
  unpackFueled (buf.length + 1) t buf

/-! ### The data store (`data.c`) -/

/-- `adlb_refcounts`: a read/write refcount change pair. -/
structure Refcounts where
  read_refcount : Int
  write_refcount : Int
  deriving DecidableEq, Repr

/-- `ADLB_NO_RC`. -/
def ADLB_NO_RC : Refcounts := ⟨0, 0⟩

/-- `ADLB_RC_IS_NULL`. -/
def ADLB_RC_IS_NULL (rc : Refcounts) : Bool :=
  rc.read_refcount == 0 && rc.write_refcount == 0

/-- `adlb_create_props` (initial refcounts and permanence; the debug
symbol plays no role in the data module's logic). -/
structure CreateProps where
  read_refcount : Int
  write_refcount : Int
  permanent : Bool
  deriving DecidableEq, Repr

/-- The storage union of a datum at rest in the store.  A container
member cell holds `none` for the *unlinked sentinel* deposited by
`data_insert_atomic` (a NULL `adlb_container_val` in C); `uninit`
models the union before the first store (C leaves it unwritten). -/
inductive DStorage where
  | uninit
  | scalar (v : Value)
  | cont (keyType valType : Nat) (members : List (List Nat × Option Value))
  | mset (elemType : Nat) (elems : List Value)

/-- `adlb_datum`, with exactly the fields `data.c` uses (the struct
itself lives in the missing `data_internal.h`): type, the two
refcounts, the `status.set` / `status.permanent` bits, the storage
union, and the close-listener rank list. -/
structure AdlbDatum where
  type : Nat
  read_refcount : Int
  write_refcount : Int
  set : Bool
  permanent : Bool
  data : DStorage
  listeners : List Int

/-- Association-list lookup (the `table_lp_search` / `table_search` /
`container_lookup` operations; C hash tables keyed by id, by
"id[subscript]" string, or by member key). -/
def alookup {α β : Type} [DecidableEq α] : List (α × β) → α → Option β
  | [], _ => none
  | (k, v) :: rest, key => if k = key then some v else alookup rest key

/-- Association-list insert of a fresh key (`table_lp_add` /
`table_add` / `container_add`). -/
def aadd {α β : Type} (l : List (α × β)) (key : α) (v : β) :
    List (α × β) :=
  (key, v) :: l

/-- Association-list update of an existing key (`table_set` /
`container_set`); no effect when the key is absent. -/
def aset {α β : Type} [DecidableEq α] : List (α × β) → α → β → List (α × β)
  | [], _, _ => []
  | (k, v) :: rest, key, nv =>
    if k = key then (k, nv) :: rest else (k, v) :: aset rest key nv

/-- Association-list removal (`table_lp_remove` / `table_remove`). -/
def aremove {α β : Type} [DecidableEq α] : List (α × β) → α → List (α × β)
  | [], _ => []
  | (k, v) :: rest, key => if k = key then rest else (k, v) :: aremove rest key

/-- `list_i_unique_insert` / `list_l_unique_insert` from the c-utils
lists: append the element unless already present. -/
def unique_insert (l : List Int) (x : Int) : List Int :=
  if x ∈ l then l else l ++ [x]

/-- The process-wide state of the data module (`data.c` statics): the
id → datum table `tds`, the two `(container, subscript)`-keyed
subscription tables, the lock table, the server count, and the unique-id
counter with its limit.  The C subscription tables are keyed by the
`print_id_sub` string `"id[subscript]"`, an injective image of the
`(id, subscript)` pair, modelled as the pair itself. -/
structure DataState where
  tds : List (Int × AdlbDatum)
  container_references : List ((Int × List Nat) × List Int)
  container_ix_listeners : List ((Int × List Nat) × List Int)
  locked : List (Int × Int)
  servers : Int
  uniqueId : Int
  lastId : Int

/-- `data_init` from `data.c`: server 0 skips id 0 (`ADLB_DATA_ID_NULL`)
by starting its stride one step in; `last_id` is `LONG_MAX - servers - 1`. -/
def data_init (s serverNum : Int) : DataState :=
  { tds := []
    container_references := []
    container_ix_listeners := []
    locked := []
    servers := s
    uniqueId := if serverNum = 0 then serverNum + s else serverNum
    lastId := longMax - s - 1 }

/-- `data_unique` from `data.c`: mint the next id in this server's
stride, or `ADLB_DATA_ERROR_LIMIT` once the stride reaches `last_id`. -/
def data_unique (st : DataState) : DataState × Except DataCode Int :=
  if st.uniqueId ≥ st.lastId then (st, .error .ERROR_LIMIT)
  else ({ st with uniqueId := st.uniqueId + st.servers }, .ok st.uniqueId)

/-- Result block of `refcount_impl`: the `garbage_collected` flag, the
`refcounts_scavenged` output and the close-notification ranks. -/
structure RCRes where
  garbage_collected : Bool
  scavenged : Refcounts
  notif : List Int
  deriving Repr

mutual
/-- Modelled from the spec: the embedded referand ids of a value
(`data_cleanup.c` and `refcount.c` are not under `src/`): "refs
decrement their target; containers decrement each value and each key if
key is a ref type; multisets decrement each element"
(scalars have none). -/
def valueReferands : Value → List Int
  | .ref id => [id]
  | .container kt _ es => entryReferands kt es
  | .multiset _ el => elemReferands el
  | _ => []

/-- Modelled from the spec: referands of container entries (the key
contributes when the key type is ref and the key is a full id). -/
def entryReferands (kt : Nat) : Entries → List Int
  | .nil => []
  | .cons k v rest =>
    (if kt = typeREF ∧ k.length = 8 then [int64OfBytes k] else []) ++
      valueReferands v ++ entryReferands kt rest

/-- Modelled from the spec: referands of multiset elements. -/
def elemReferands : Elems → List Int
  | .nil => []
  | .cons v rest => valueReferands v ++ elemReferands rest
end

/-- Referands embedded in a datum's storage (unlinked container cells
hold no value and contribute none). -/
def storageReferands : DStorage → List Int
  | .uninit => []
  | .scalar v => valueReferands v
  | .cont kt _ members =>
    members.foldr
      (fun m acc =>
        (if kt = typeREF ∧ m.1.length = 8 then [int64OfBytes m.1] else []) ++
          (match m.2 with | some v => valueReferands v | none => []) ++ acc)
      []
  | .mset _ elems => elems.foldr (fun v acc => valueReferands v ++ acc) []

/-- Modelled from the spec: the recursive referand decrement loop of
`cleanup_storage` (missing `data_cleanup.c`): release one read
reference per embedded referand, through the refcount state machine
(passed in as `recurse` so the loop is structural). -/
def cleanup_refs_with
    (recurse : DataState → Int → Refcounts → Refcounts →
      DataState × Except DataCode RCRes) (st : DataState) :
    List Int → DataState × Except DataCode Unit
  | [] => (st, .ok ())
  | r :: rest =>
    match recurse st r ⟨-1, 0⟩ ADLB_NO_RC with
    | (st, .error e) => (st, .error e)
    | (st, .ok _) => cleanup_refs_with recurse st rest

/-- `datum_gc` from `data.c`: cleanup of the storage (the referand
decrements of the missing `data_cleanup.c`, modelled from the spec:
skipped entirely when refcounts are being scavenged — they are
transferred to the caller instead), the empty-listener check, and
removal from `tds`.  The refcount machine for nested decrements is
passed in as `recurse`. -/
def datum_gc_with
    (recurse : DataState → Int → Refcounts → Refcounts →
      DataState × Except DataCode RCRes) (st : DataState) (id : Int)
    (d : AdlbDatum) (scav : Refcounts) :
    DataState × Except DataCode Unit :=
  if d.permanent then (st, .error .ERROR_UNKNOWN)
  else
    match
      (if d.set ∧ ADLB_RC_IS_NULL scav then
        cleanup_refs_with recurse st (storageReferands d.data)
      else (st, .ok ())) with
    | (st, .error e) => (st, .error e)
    | (st, .ok _) =>
      if d.listeners ≠ [] then (st, .error .ERROR_TYPE)
      else ({ st with tds := aremove st.tds id }, .ok ())

/-- `refcount_impl` from `data.c`: apply a refcount change to a datum,
with scavenging, garbage collection and close notification.  The fuel
bounds the (in C unbounded, but store-size-bounded) recursion through
`datum_gc`'s referand decrements; the entry points hand it enough fuel
that it cannot run out on states C handles.  Mutations already made are
kept when a later step fails, exactly as the C code leaves them. -/
def refcount_impl_f (enabled : Bool) :
    Nat → DataState → Int → Refcounts → Refcounts →
      DataState × Except DataCode RCRes
  | 0, st, _, _, _ => (st, .error .ERROR_UNKNOWN)
  | fuel + 1, st, id, change, scav =>
    match alookup st.tds id with
    | none => (st, .error .ERROR_NOT_FOUND)
    | some d =>
      -- assert(scav.refcounts.{read,write}_refcount >= 0)
      if scav.read_refcount < 0 ∨ scav.write_refcount < 0 then
        (st, .error .ERROR_UNKNOWN)
      else
      let read_incr := change.read_refcount
      let write_incr := change.write_refcount
      let do_gc : Bool :=
        d.read_refcount + read_incr ≤ 0 ∧ d.write_refcount + write_incr ≤ 0
      if ¬ ADLB_RC_IS_NULL scav ∧ ¬ do_gc then
        -- cannot scavenge: do not go through with the decrement
        (st, .ok ⟨false, ADLB_NO_RC, []⟩)
      else
      let scavenged : Refcounts :=
        if ¬ ADLB_RC_IS_NULL scav then
          ⟨if scav.read_refcount > 0 then 1 else 0,
           if scav.write_refcount > 0 then 1 else 0⟩
        else ADLB_NO_RC
      -- read part
      if read_incr ≠ 0 ∧ ¬ enabled then
        (st, .error .ERROR_INVALID)
      else if read_incr ≠ 0 ∧ d.permanent then
        -- read refcount operations ignored for permanent variables:
        -- the whole remaining operation is skipped
        (st, .ok ⟨false, scavenged, []⟩)
      else
      if read_incr ≠ 0 ∧
          ¬ (d.read_refcount > 0 ∧ d.read_refcount + read_incr ≥ 0) then
        (st, .error .ERROR_REFCOUNT_NEGATIVE)
      else
      let d := { d with read_refcount :=
        if read_incr ≠ 0 then d.read_refcount + read_incr
        else d.read_refcount }
      let st := { st with tds := aset st.tds id d }
      -- write part
      if write_incr ≠ 0 ∧
          ¬ (d.write_refcount > 0 ∧ d.write_refcount + write_incr ≥ 0) then
        (st, .error .ERROR_REFCOUNT_NEGATIVE)
      else
      let d := { d with write_refcount :=
        if write_incr ≠ 0 then d.write_refcount + write_incr
        else d.write_refcount }
      let notif := if write_incr ≠ 0 ∧ d.write_refcount = 0 then
        d.listeners else []
      let d := if write_incr ≠ 0 ∧ d.write_refcount = 0 then
        { d with listeners := [] } else d
      let st := { st with tds := aset st.tds id d }
      if d.read_refcount ≤ 0 ∧ d.write_refcount ≤ 0 then
        match datum_gc_with (refcount_impl_f enabled fuel) st id d scav with
        | (st, .ok _) => (st, .ok ⟨true, scavenged, notif⟩)
        | (st, .error e) => (st, .error e)
      else
        (st, .ok ⟨false, scavenged, notif⟩)

/-- `refcount_impl` / entry fuel: one unit per datum the cascading
garbage collection can visit, plus one (a successful nested chain
releases distinct datums, so this cannot run out where C terminates). -/
def refcount_impl (enabled : Bool) (st : DataState) (id : Int)
    (change scav : Refcounts) : DataState × Except DataCode RCRes :=
  refcount_impl_f enabled (st.tds.length + 1) st id change scav

/-- `data_reference_count` from `data.c`: look the datum up and apply
`refcount_impl`. -/
def data_reference_count (enabled : Bool) (st : DataState) (id : Int)
    (change scav : Refcounts) : DataState × Except DataCode RCRes :=
  match alookup st.tds id with
  | none => (st, .error .ERROR_NOT_FOUND)
  | some _ => refcount_impl enabled st id change scav

/-- The client-side read filter of `xlb_refcount_incr` (`adlb.c`): with
read refcounting disabled the read component is zeroed before the
request is made; a change that becomes null is not sent at all. -/
def xlb_refcount_incr (enabled : Bool) (st : DataState) (id : Int)
    (change : Refcounts) : DataState × Except DataCode RCRes :=
  let change := if enabled then change
    else { change with read_refcount := 0 }
  if ADLB_RC_IS_NULL change then (st, .ok ⟨false, ADLB_NO_RC, []⟩)
  else data_reference_count enabled st id change ADLB_NO_RC

/-- Modelled from the spec: `incr_rc_referand` (missing `refcount.c`):
apply the change to every referand embedded in the value, through the
refcount state machine. -/
def apply_rc_list (enabled : Bool) (st : DataState) (change : Refcounts) :
    List Int → DataState × Except DataCode Unit
  | [] => (st, .ok ())
  | r :: rest =>
    match refcount_impl enabled st r change ADLB_NO_RC with
    | (st, .error e) => (st, .error e)
    | (st, .ok _) => apply_rc_list enabled st change rest

/-- Modelled from the spec: `incr_rc_referand` on a value. -/
def incr_rc_referand (enabled : Bool) (st : DataState) (v : Value)
    (change : Refcounts) : DataState × Except DataCode Unit :=
  apply_rc_list enabled st change (valueReferands v)

/-- `datum_init_props` from `data.c`: negative initial refcounts are
rejected; otherwise the refcounts, the default status and the permanent
flag are installed. -/
def datum_init_props (d : AdlbDatum) (props : CreateProps) :
    Except DataCode AdlbDatum :=
  if props.read_refcount < 0 then .error .ERROR_INVALID
  else if props.write_refcount < 0 then .error .ERROR_INVALID
  else .ok { d with
    read_refcount := props.read_refcount
    write_refcount := props.write_refcount
    set := false
    permanent := props.permanent }

/-- `data_create` from `data.c`.  `extraKey`/`extraVal` stand for
`adlb_type_extra` (one union: the multiset value type occupies the
first slot).  The double-declare check is the `#ifndef NDEBUG` one.
When `datum_init_props` rejects the props, the freshly added datum is
left in the table with its refcount fields unwritten (uninitialized
memory in C); the model uses 0 for those unspecified fields. -/
def data_create (st : DataState) (id : Int) (type : Nat)
    (extraKey extraVal : Nat) (props : CreateProps) :
    DataState × Except DataCode Unit :=
  if ¬ id > 0 then (st, .error .ERROR_INVALID)
  else if (alookup st.tds id).isSome then
    (st, .error .ERROR_DOUBLE_DECLARE)
  else if props.read_refcount ≤ 0 ∧ props.write_refcount ≤ 0 then
    (st, .ok ())  -- "Skipped creation"
  else
    let d0 : AdlbDatum :=
      { type := type, read_refcount := 0, write_refcount := 0,
        set := false, permanent := false, data := .uninit,
        listeners := [] }
    let st := { st with tds := aadd st.tds id d0 }
    match datum_init_props d0 props with
    | .error e => (st, .error e)
    | .ok d1 =>
      let d2 :=
        if type = typeCONTAINER then
          { d1 with data := .cont extraKey extraVal [], set := true }
        else if type = typeMULTISET then
          { d1 with data := .mset extraKey [], set := true }
        else d1
      ({ st with tds := aset st.tds id d2 }, .ok ())

/-- Container entries of a packed value, as linked member cells. -/
def entriesToMembers : Entries → List (List Nat × Option Value)
  | .nil => []
  | .cons k v rest => (k, some v) :: entriesToMembers rest

/-- Multiset elements as a plain list. -/
def elemsToList : Elems → List Value
  | .nil => []
  | .cons v rest => v :: elemsToList rest

/-- Multiset element list as a value. -/
def listToElems : List Value → Elems
  | [] => .nil
  | v :: rest => .cons v (listToElems rest)

/-- Member cells as container entries, defined when all are linked. -/
def membersToEntries : List (List Nat × Option Value) → Option Entries
  | [] => some .nil
  | (k, some v) :: rest => do
    let es ← membersToEntries rest
    some (.cons k v es)
  | (_, none) :: _ => none

/-- Conversion of an unpacked value into datum storage (the effect of
`ADLB_Unpack(&d->data, d->type, …)` on the union: compound values
arrive with every member linked). -/
def valueToStorage : Value → DStorage
  | .container kt vt es =>
    .cont kt vt (entriesToMembers es)
  | .multiset et el => .mset et (elemsToList el)
  | v => .scalar v

/-- Datum storage as a packable value (used by `data_retrieve`); a
container holding an unlinked cell has no packable value (packing the
NULL pointer is undefined in C, `none` here). -/
def storageToValue : DStorage → Option Value
  | .uninit => none
  | .scalar v => some v
  | .cont kt vt members => do
    let es ← membersToEntries members
    some (.container kt vt es)
  | .mset et elems => some (.multiset et (listToElems elems))

/-- The notification batch filled in by `data_store`
(`adlb_notif_t`): pending container references to assign, insert
listeners to wake, and close listeners to wake. -/
structure Notifs where
  references : List Int
  insert_notify : List Int
  close_notify : List Int
  deriving Repr

/-- `insert_notifications` from `data.c`: called after a container store
linked `(container_id, subscript)`.  Pending `container_references` ids
are drained; with read refcounting on, every referand of the inserted
value gains one read refcount per drained reference
(`incr_rc_referand`), and the single read refcount held on behalf of
the subscribed pair is released (possibly collecting the container —
reported through the returned flag).  Index listeners for the pair are
drained last.  Returns (references, notify_insert ranks, freed). -/
def insert_notifications (enabled : Bool) (st : DataState)
    (container_id : Int) (sub : List Nat) (insertedValue : Value)
    (valType : Nat) :
    DataState × Except DataCode (List Int × List Int × Bool) :=
  let pair := (container_id, sub)
  let refRes : DataState × Except DataCode (List Int × Bool) :=
    match alookup st.container_references pair with
    | some refList =>
      let st :=
        { st with container_references :=
            aremove st.container_references pair }
      if enabled then
        match incr_rc_referand enabled st insertedValue
            ⟨(refList.length : Int), 0⟩ with
        | (st, .error e) => (st, .error e)
        | (st, .ok _) =>
          match refcount_impl enabled st container_id ⟨-1, 0⟩ ADLB_NO_RC with
          | (st, .error e) => (st, .error e)
          | (st, .ok res) => (st, .ok (refList, res.garbage_collected))
      else (st, .ok (refList, false))
    | none => (st, .ok ([], false))
  match refRes with
  | (st, .error e) => (st, .error e)
  | (st, .ok (references, freed)) =>
    match alookup st.container_ix_listeners pair with
    | some subList =>
      ({ st with container_ix_listeners :=
          aremove st.container_ix_listeners pair },
       .ok (references, subList, freed))
    | none => (st, .ok (references, [], freed))

/-- `data_store` from `data.c`: write a value (or container member, or
multiset element), fire insert notifications, and apply the trailing
refcount decrement.  A failed `ADLB_Unpack` is the generic
`ADLB_DATA_ERROR_INVALID`.  The member unpack of the multiset branch
(`xlb_multiset_add`, missing `multiset.c`) is modelled from the spec:
"storing into a multiset appends". -/
def data_store (enabled : Bool) (st : DataState) (id : Int)
    (sub : Option (List Nat)) (buffer : List Nat) (type : Nat)
    (decr : Refcounts) : DataState × Except DataCode Notifs :=
  match alookup st.tds id with
  | none => (st, .error .ERROR_NOT_FOUND)
  | some d =>
    if ¬ d.write_refcount > 0 then (st, .error .ERROR_DOUBLE_WRITE)
    else
      let stored : DataState × Except DataCode (List Int × List Int × Bool) :=
        if d.type = typeMULTISET then
          match sub, d.data with
          | some _, _ => (st, .error .ERROR_TYPE)
          | none, .mset elem_type elems =>
            if type ≠ elem_type then (st, .error .ERROR_TYPE)
            else match ADLB_Unpack elem_type buffer with
              | none => (st, .error .ERROR_INVALID)
              | some v =>
                let d := { d with data := .mset elem_type (elems ++ [v]) }
                ({ st with tds := aset st.tds id d }, .ok ([], [], false))
          | none, _ => (st, .error .ERROR_UNKNOWN)
        else match sub with
        | none =>
          if type ≠ d.type then (st, .error .ERROR_TYPE)
          else match ADLB_Unpack d.type buffer with
            | none => (st, .error .ERROR_INVALID)
            | some v =>
              let d := { d with data := valueToStorage v, set := true }
              ({ st with tds := aset st.tds id d }, .ok ([], [], false))
        | some s =>
          if d.type ≠ typeCONTAINER then (st, .error .ERROR_TYPE)
          else match d.data with
          | .cont kt vt members =>
            if type ≠ vt then (st, .error .ERROR_TYPE)
            else
              let found := alookup members s
              match ADLB_Unpack vt buffer with
              | none => (st, .error .ERROR_INVALID)
              | some v =>
                match found with
                | some cell =>
                  if cell.isSome then (st, .error .ERROR_DOUBLE_WRITE)
                  else
                    let d :=
                      { d with data := .cont kt vt (aset members s (some v)) }
                    let st := { st with tds := aset st.tds id d }
                    insert_notifications enabled st id s v vt
                | none =>
                  let d :=
                    { d with data := .cont kt vt (aadd members s (some v)) }
                  let st := { st with tds := aset st.tds id d }
                  insert_notifications enabled st id s v vt
          | _ => (st, .error .ERROR_UNKNOWN)
      match stored with
      | (st, .error e) => (st, .error e)
      | (st, .ok (references, insert_notify, freed)) =>
        -- assert(refcount_decr.{write,read}_refcount >= 0)
        if decr.write_refcount < 0 ∨ decr.read_refcount < 0 then
          (st, .error .ERROR_UNKNOWN)
        else if decr.write_refcount > 0 ∨ decr.read_refcount > 0 then
          if freed then (st, .error .ERROR_REFCOUNT_NEGATIVE)
          else
            let incr : Refcounts :=
              ⟨if enabled then -decr.read_refcount else 0,
               -decr.write_refcount⟩
            match refcount_impl enabled st id incr ADLB_NO_RC with
            | (st, .error e) => (st, .error e)
            | (st, .ok res) =>
              (st, .ok ⟨references, insert_notify, res.notif⟩)
        else (st, .ok ⟨references, insert_notify, []⟩)

/-- `data_retrieve` from `data.c` (this version applies no refcount
changes): returns the type and packed bytes.  An id that is absent is
`NOT_FOUND`; an unset datum is `UNSET` (`CHECK_SET`); a subscript a
container lacks — or holds only as the unlinked sentinel — is
`SUBSCRIPT_NOT_FOUND`.  The struct-field path lives in the missing
`data_structs.c` and is left as `ERROR_UNKNOWN`. -/
def data_retrieve (st : DataState) (id : Int) (sub : Option (List Nat)) :
    Except DataCode (Nat × List Nat) :=
  match alookup st.tds id with
  | none => .error .ERROR_NOT_FOUND
  | some d =>
    match sub with
    | none =>
      if ¬ d.set then .error .ERROR_UNSET
      else
        match storageToValue d.data with
        | none => .error .ERROR_UNKNOWN
        | some v =>
          match ADLB_Pack d.type v with
          | none => .error .ERROR_TYPE
          | some bs => .ok (d.type, bs)
    | some s =>
      if d.type = typeCONTAINER then
        match d.data with
        | .cont _ vt members =>
          match alookup members s with
          | none => .error .ERROR_SUBSCRIPT_NOT_FOUND
          | some none => .error .ERROR_SUBSCRIPT_NOT_FOUND
          | some (some v) =>
            match ADLB_Pack vt v with
            | none => .error .ERROR_TYPE
            | some bs => .ok (vt, bs)
        | _ => .error .ERROR_UNKNOWN
      else if d.type = typeSTRUCT then .error .ERROR_UNKNOWN
      else .error .ERROR_INVALID

/-- `data_container_reference` from `data.c`: if the subscript is
already linked, pack and return its value (`some bytes`); otherwise
record `reference` under `(container_id, subscript)` and return `none`
for "subscribed".  A fresh pair keeps the caller's read refcount (the
datum's count is untouched); a later subscriber to the same pair has
its extra read refcount released at once (the `assert(read ≥ 2)` is
modelled as an error). -/
def data_container_reference (st : DataState) (container_id : Int)
    (sub : List Nat) (reference : Int) (ref_type : Nat) :
    DataState × Except DataCode (Option (List Nat)) :=
  match alookup st.tds container_id with
  | none => (st, .error .ERROR_NOT_FOUND)
  | some d =>
    match d.data with
    | .cont _ vt members =>
      if ref_type ≠ vt then (st, .error .ERROR_TYPE)
      else
        match alookup members sub with
        | some (some v) =>
          match ADLB_Pack vt v with
          | none => (st, .error .ERROR_TYPE)
          | some bs => (st, .ok (some bs))
        | _ =>
          if ¬ d.write_refcount > 0 then (st, .error .ERROR_INVALID)
          else if ¬ d.read_refcount > 0 then (st, .error .ERROR_INVALID)
          else
            let pair := (container_id, sub)
            match alookup st.container_references pair with
            | none =>
              let refsTable :=
                aadd st.container_references pair (unique_insert [] reference)
              ({ st with container_references := refsTable }, .ok none)
            | some listeners =>
              if d.read_refcount < 2 then (st, .error .ERROR_UNKNOWN)
              else
                let d := { d with read_refcount := d.read_refcount - 1 }
                let refsTable :=
                  aset st.container_references pair
                    (unique_insert listeners reference)
                let st := { st with tds := aset st.tds container_id d }
                ({ st with container_references := refsTable }, .ok none)
    | _ => (st, .error .ERROR_UNKNOWN)

/-- `data_insert_atomic` from `data.c`: reserve a container slot.  A
present subscript — linked or not — reports `created = false` together
with whether a value is present; an absent one gets the unlinked
sentinel and reports `created = true` (C leaves `*value_present`
unwritten on this path; the model returns `false`). -/
def data_insert_atomic (st : DataState) (container_id : Int)
    (sub : List Nat) : DataState × Except DataCode (Bool × Bool) :=
  match alookup st.tds container_id with
  | none => (st, .error .ERROR_NOT_FOUND)
  | some d =>
    if d.type ≠ typeCONTAINER then (st, .error .ERROR_TYPE)
    else match d.data with
    | .cont kt vt members =>
      match alookup members sub with
      | some cell => (st, .ok (false, cell.isSome))
      | none =>
        let d := { d with data := .cont kt vt (aadd members sub none) }
        ({ st with tds := aset st.tds container_id d }, .ok (true, false))
    | _ => (st, .error .ERROR_UNKNOWN)

/-- `data_subscribe` from `data.c`: with a subscript, add the rank to
the `(id, subscript)` index-listener list (C leaves `*result`
unwritten on this path; the model reports 1); without one, subscribe to
close — a datum already closed (`write_refcount = 0`) reports 0 and
records nothing. -/
def data_subscribe (st : DataState) (id : Int) (sub : Option (List Nat))
    (rank : Int) : DataState × Except DataCode Nat :=
  match alookup st.tds id with
  | none => (st, .error .ERROR_NOT_FOUND)
  | some d =>
    match sub with
    | some s =>
      if d.type ≠ typeCONTAINER then (st, .error .ERROR_INVALID)
      else
        let pair := (id, s)
        match alookup st.container_ix_listeners pair with
        | none =>
          let tbl :=
            aadd st.container_ix_listeners pair (unique_insert [] rank)
          ({ st with container_ix_listeners := tbl }, .ok 1)
        | some listeners =>
          let tbl :=
            aset st.container_ix_listeners pair (unique_insert listeners rank)
          ({ st with container_ix_listeners := tbl }, .ok 1)
    | none =>
      if d.write_refcount = 0 then (st, .ok 0)
      else
        let d := { d with listeners := unique_insert d.listeners rank }
        ({ st with tds := aset st.tds id d }, .ok 1)

/-- `data_lock` from `data.c`. -/
def data_lock (st : DataState) (id : Int) (rank : Int) :
    DataState × Except DataCode Bool :=
  match alookup st.tds id with
  | none => (st, .error .ERROR_NOT_FOUND)
  | some _ =>
    match alookup st.locked id with
    | some _ => (st, .ok false)
    | none => ({ st with locked := aadd st.locked id rank }, .ok true)

/-- `data_unlock` from `data.c`. -/
def data_unlock (st : DataState) (id : Int) :
    DataState × Except DataCode Unit :=
  match alookup st.locked id with
  | none => (st, .error .ERROR_NOT_FOUND)
  | some _ => ({ st with locked := aremove st.locked id }, .ok ())

/-- `ADLB_Locate` from `adlb.c`: the owning rank of a datum id.  C `%`
on `int64_t` is truncated remainder (`Int.tmod`); a negative remainder
is shifted up by the server count, and the server block sits after the
workers at the top of the communicator. -/
def ADLB_Locate (xlb_servers xlb_comm_size : Int) (id : Int) : Int :=
  let offset := Int.tmod id xlb_servers
  let offset := if offset < 0 then offset + xlb_servers else offset
  xlb_comm_size - xlb_servers + offset

/-- One request against the data module (the state-changing server
operations). -/
inductive Op where
  | createOp (id : Int) (type extraKey extraVal : Nat) (props : CreateProps)
  | storeOp (id : Int) (sub : Option (List Nat)) (buffer : List Nat)
      (type : Nat) (decr : Refcounts)
  | refcountOp (id : Int) (change scav : Refcounts)
  | containerRefOp (id : Int) (sub : List Nat) (reference : Int)
      (refType : Nat)
  | insertAtomicOp (id : Int) (sub : List Nat)
  | subscribeOp (id : Int) (sub : Option (List Nat)) (rank : Int)
  | lockOp (id : Int) (rank : Int)
  | unlockOp (id : Int)
  | uniqueOp

/-- Apply one operation, keeping whatever state it leaves behind
(successful or not, as the C functions mutate in place). -/
def applyOp (enabled : Bool) (st : DataState) : Op → DataState
  | .createOp id type ek ev props => (data_create st id type ek ev props).1
  | .storeOp id sub buffer type decr =>
      (data_store enabled st id sub buffer type decr).1
  | .refcountOp id change scav =>
      (data_reference_count enabled st id change scav).1
  | .containerRefOp id sub reference refType =>
      (data_container_reference st id sub reference refType).1
  | .insertAtomicOp id sub => (data_insert_atomic st id sub).1
  | .subscribeOp id sub rank => (data_subscribe st id sub rank).1
  | .lockOp id rank => (data_lock st id rank).1
  | .unlockOp id => (data_unlock st id).1
  | .uniqueOp => (data_unique st).1

/-- Run a sequence of operations (each tagged with the value of the
process-wide `xlb_read_refcount_enabled` flag at that moment). -/
def runOps (st : DataState) : List (Bool × Op) → DataState
  | [] => st
  | (enabled, op) :: rest => runOps (applyOp enabled st op) rest

/-! ### Well-typed values and nesting depth (for the codec theorems) -/

mutual
/-- A value well-typed at a type code, as the C representation
guarantees it: the storage union matches the type tag, 64-bit scalars
are in `int64_t` range, the float pattern has 64 bits, and — because
every C length and count is an `int` — member keys, packed member
payloads, and entry counts fit `INT_MAX`. -/
def WTv : Nat → Value → Bool
  | t, .integer i =>
    t == typeINTEGER && decide (-(2 ^ 63 : Int) ≤ i) && decide (i < 2 ^ 63)
  | t, .float bits => t == typeFLOAT && decide (bits < 2 ^ 64)
  | t, .str _ => t == typeSTRING
  | t, .blob _ => t == typeBLOB
  | t, .ref id =>
    t == typeREF && decide (-(2 ^ 63 : Int) ≤ id) && decide (id < 2 ^ 63)
  | t, .container kt vt es =>
    t == typeCONTAINER && decide (kt ≤ intMax) && decide (vt ≤ intMax) &&
      decide (es.count ≤ intMax) && WTentries vt es
  | t, .multiset et el =>
    t == typeMULTISET && decide (et ≤ intMax) &&
      decide (el.count ≤ intMax) && WTelems et el

/-- Container entries well-typed at the container's value type. -/
def WTentries : Nat → Entries → Bool
  | _, .nil => true
  | vt, .cons k v rest =>
    decide (k.length ≤ intMax) &&
      (match ADLB_Pack vt v with
       | some pb => decide (pb.length ≤ intMax)
       | none => false) &&
      WTv vt v && WTentries vt rest

/-- Multiset elements well-typed at the element type. -/
def WTelems : Nat → Elems → Bool
  | _, .nil => true
  | et, .cons v rest =>
    (match ADLB_Pack et v with
     | some pb => decide (pb.length ≤ intMax)
     | none => false) &&
      WTv et v && WTelems et rest
end

mutual
/-- Nesting depth of a value (how much fuel `unpackFueled` needs). -/
def depthV : Value → Nat
  | .container _ _ es => depthE es + 1
  | .multiset _ el => depthL el + 1
  | _ => 1

/-- Nesting depth of container entries. -/
def depthE : Entries → Nat
  | .nil => 0
  | .cons _ v rest => max (depthV v) (depthE rest)

/-- Nesting depth of multiset elements. -/
def depthL : Elems → Nat
  | .nil => 0
  | .cons v rest => max (depthV v) (depthL rest)
end

/-- Iterated `data_unique`: the state after `n` calls. -/
def uniqueAfter (st : DataState) : Nat → DataState
  | 0 => st
  | n + 1 => uniqueAfter (data_unique st).1 n

/-- The refcount invariant: every datum in the store has nonnegative
read and write refcounts. -/
def InvRC (st : DataState) : Prop :=
  ∀ p ∈ st.tds, 0 ≤ p.2.read_refcount ∧ 0 ≤ p.2.write_refcount

/-! ## Theorems -/

theorem vintEncode_ne_nil (n : Nat) : vintEncode n ≠ [] := by
  rw [vintEncode]
  split <;> simp

theorem vintDecode_vintEncode (n : Nat) (rest : List Nat) :
    vintDecode (vintEncode n ++ rest) = some (n, (vintEncode n).length) := by
  induction n using Nat.strong_induction_on with
  | _ n ih =>
    rw [vintEncode]
    split
    · next h => simp [vintDecode, h]
    · next h =>
      have h2 : ¬ (128 + n % 128 < 128) := by omega
      have hd := ih (n / 128) (Nat.div_lt_self (by omega) (by omega))
      simp only [List.cons_append, vintDecode, if_neg h2, List.append_eq, hd,
        List.length_cons, Option.some.injEq, Prod.mk.injEq]
      refine ⟨?_, trivial⟩
      have h3 : (128 + n % 128) % 128 = n % 128 := by omega
      rw [h3]
      omega

theorem vintEncode_length_le (k : Nat) :
    ∀ n, n < 128 ^ k → 1 ≤ k → (vintEncode n).length ≤ k := by
  induction k with
  | zero => omega
  | succ k ih =>
    intro n hn _
    rw [vintEncode]
    split
    · simp only [List.length_singleton]; omega
    · next h =>
      have hk : 1 ≤ k := by
        rcases Nat.eq_zero_or_pos k with hk | hk
        · subst hk; simp [pow_succ] at hn; omega
        · omega
      have : n / 128 < 128 ^ k := by
        rw [Nat.div_lt_iff_lt_mul (by omega)]
        calc n < 128 ^ (k + 1) := hn
        _ = 128 ^ k * 128 := by ring
      simpa using Nat.succ_le_succ (ih (n / 128) this hk)

theorem vintEncode_length_le_max (n : Nat) (h : n ≤ intMax) :
    (vintEncode n).length ≤ vintMaxBytes := by
  have := vintEncode_length_le 5 n (by unfold intMax at h; norm_num; omega)
    (by norm_num)
  unfold vintMaxBytes
  omega

theorem vintPad_length (n : Nat) (h : n ≤ intMax) :
    (vintPad n).length = vintMaxBytes := by
  have := vintEncode_length_le_max n h
  simp [vintPad]
  omega

theorem vintDecode_vintPad (n : Nat) (rest : List Nat) :
    vintDecode (vintPad n ++ rest) = some (n, (vintEncode n).length) := by
  rw [vintPad, List.append_assoc, vintDecode_vintEncode]

theorem natBytesLE_length (k : Nat) : ∀ n, (natBytesLE k n).length = k := by
  induction k with
  | zero => intro n; rfl
  | succ k ih => intro n; simp [natBytesLE, ih]

theorem natFromBytesLE_natBytesLE (k : Nat) :
    ∀ n, n < 256 ^ k → natFromBytesLE (natBytesLE k n) = n := by
  induction k with
  | zero => intro n h; simp at h; simp [natBytesLE, natFromBytesLE, h]
  | succ k ih =>
    intro n h
    have : n / 256 < 256 ^ k := by
      rw [Nat.div_lt_iff_lt_mul (by omega)]
      calc n < 256 ^ (k + 1) := h
      _ = 256 ^ k * 256 := by ring
    simp [natBytesLE, natFromBytesLE, ih (n / 256) this]
    omega

theorem int64ToBytes_length (i : Int) : (int64ToBytes i).length = 8 :=
  natBytesLE_length 8 _

theorem int64OfBytes_int64ToBytes (i : Int)
    (h1 : -(2 ^ 63) ≤ i) (h2 : i < 2 ^ 63) :
    int64OfBytes (int64ToBytes i) = i := by
  unfold int64ToBytes int64OfBytes
  have hlt : (i % (2 ^ 64)).toNat < 256 ^ 8 := by
    have h0 : (0 : Int) ≤ i % (2 ^ 64) := Int.emod_nonneg i (by norm_num)
    have h1' : i % (2 ^ 64) < 2 ^ 64 := Int.emod_lt_of_pos i (by norm_num)
    norm_num
    omega
  rw [natFromBytesLE_natBytesLE 8 _ hlt]
  have h0 : (0 : Int) ≤ i % (2 ^ 64) := Int.emod_nonneg i (by norm_num)
  have hcast : ((i % (2 ^ 64)).toNat : Int) = i % (2 ^ 64) :=
    Int.toNat_of_nonneg h0
  show (if (i % (2 ^ 64)).toNat < 2 ^ 63 then ((i % (2 ^ 64)).toNat : Int)
    else ((i % (2 ^ 64)).toNat : Int) - 2 ^ 64) = i
  split <;> omega

theorem vintEncode_length_pos (n : Nat) : 0 < (vintEncode n).length :=
  List.length_pos.mpr (vintEncode_ne_nil n)

theorem unpack_buffer_plain (payload rest : List Nat)
    (h : payload.length ≤ intMax) :
    ADLB_Unpack_buffer false
      (vintEncode payload.length ++ (payload ++ rest)) =
      some (payload, rest) := by
  have hdec := vintDecode_vintEncode payload.length (payload ++ rest)
  have hpos := vintEncode_length_pos payload.length
  simp only [ADLB_Unpack_buffer, hdec, List.length_append]
  rw [if_neg (by omega)]
  simp only [Bool.false_eq_true, if_false]
  rw [if_pos ⟨h, by omega⟩]
  rw [List.drop_left, List.take_left]
  rw [show (vintEncode payload.length).length + payload.length =
      (vintEncode payload.length ++ payload).length from by simp]
  rw [show vintEncode payload.length ++ (payload ++ rest) =
      (vintEncode payload.length ++ payload) ++ rest from by simp]
  rw [List.drop_left]

theorem unpack_buffer_padded (payload rest : List Nat)
    (h : payload.length ≤ intMax) :
    ADLB_Unpack_buffer true
      (vintPad payload.length ++ (payload ++ rest)) =
      some (payload, rest) := by
  have hdec := vintDecode_vintPad payload.length (payload ++ rest)
  have hpadlen := vintPad_length payload.length h
  have hpos : 0 < (vintPad payload.length).length := by
    rw [hpadlen]; unfold vintMaxBytes; omega
  simp only [ADLB_Unpack_buffer, hdec, List.length_append]
  rw [if_neg (by omega)]
  simp only [if_true]
  rw [if_pos ⟨h, by omega⟩]
  rw [show vintMaxBytes = (vintPad payload.length).length from hpadlen.symm]
  rw [List.drop_left, List.take_left]
  rw [show (vintPad payload.length).length + payload.length =
      (vintPad payload.length ++ payload).length from by simp]
  rw [show vintPad payload.length ++ (payload ++ rest) =
      (vintPad payload.length ++ payload) ++ rest from by simp]
  rw [List.drop_left]

theorem pack_buffer_of_pack (vt : Nat) (v : Value) (vbs : List Nat)
    (hwt : WTv vt v = true) (hp : ADLB_Pack vt v = some vbs) :
    ADLB_Pack_buffer vt true v =
      some ((if ADLB_pack_pad_size vt then vintPad vbs.length
        else vintEncode vbs.length) ++ vbs) := by
  cases v with
  | integer i =>
    simp only [WTv, Bool.and_eq_true, beq_iff_eq] at hwt
    obtain ⟨⟨hvt, _⟩, _⟩ := hwt
    subst hvt
    simp only [typeINTEGER] at hp
    simp [ADLB_Pack_buffer, ADLB_pack_pad_size, typeINTEGER, typeMULTISET,
      typeCONTAINER, hp]
  | float bits =>
    simp only [WTv, Bool.and_eq_true, beq_iff_eq] at hwt
    obtain ⟨hvt, _⟩ := hwt
    subst hvt
    simp only [typeFLOAT] at hp
    simp [ADLB_Pack_buffer, ADLB_pack_pad_size, typeFLOAT, typeMULTISET,
      typeCONTAINER, hp]
  | str bytes =>
    simp only [WTv, beq_iff_eq] at hwt
    subst hwt
    simp only [typeSTRING] at hp
    simp [ADLB_Pack_buffer, ADLB_pack_pad_size, typeSTRING, typeMULTISET,
      typeCONTAINER, hp]
  | blob bytes =>
    simp only [WTv, beq_iff_eq] at hwt
    subst hwt
    simp only [typeBLOB] at hp
    simp [ADLB_Pack_buffer, ADLB_pack_pad_size, typeBLOB, typeMULTISET,
      typeCONTAINER, hp]
  | ref id =>
    simp only [WTv, Bool.and_eq_true, beq_iff_eq] at hwt
    obtain ⟨⟨hvt, _⟩, _⟩ := hwt
    subst hvt
    simp only [typeREF] at hp
    simp [ADLB_Pack_buffer, ADLB_pack_pad_size, typeREF, typeMULTISET,
      typeCONTAINER, hp]
  | container kt vt' es =>
    simp only [WTv, Bool.and_eq_true, beq_iff_eq] at hwt
    obtain ⟨⟨⟨⟨hvt, _⟩, _⟩, _⟩, _⟩ := hwt
    subst hvt
    simp only [ADLB_Pack] at hp
    simp only [if_pos trivial] at hp
    simp [ADLB_Pack_buffer, ADLB_pack_pad_size, typeCONTAINER, typeMULTISET,
      hp]
  | multiset et el =>
    simp only [WTv, Bool.and_eq_true, beq_iff_eq] at hwt
    obtain ⟨⟨⟨hvt, _⟩, _⟩, _⟩ := hwt
    subst hvt
    simp only [ADLB_Pack] at hp
    simp only [if_pos trivial] at hp
    simp [ADLB_Pack_buffer, ADLB_pack_pad_size, typeMULTISET, typeCONTAINER,
      hp]

theorem vintPad_length_pos (n : Nat) : 0 < (vintPad n).length := by
  unfold vintPad
  simp only [List.length_append]
  have := vintEncode_length_pos n
  omega

theorem packMembers_rt (M : Nat)
    (H : ∀ t' v', sizeOf v' < M → WTv t' v' = true →
      ∃ bs, ADLB_Pack t' v' = some bs ∧ depthV v' ≤ bs.length + 1 ∧
        ∀ fuel, depthV v' ≤ fuel → unpackFueled fuel t' bs = some v') :
    ∀ (n : Nat) es vt, sizeOf es ≤ n → sizeOf es ≤ M →
      WTentries vt es = true →
      ∃ bs, packMembers vt es = some bs ∧ depthE es ≤ bs.length ∧
        ∀ fuel rest, depthE es ≤ fuel →
          unpackMembersWith (unpackFueled fuel) es.count vt (bs ++ rest) = some es := by
  intro n
  induction n with
  | zero =>
    intro es vt hn _ _
    exfalso
    cases es <;> simp [Entries.nil.sizeOf_spec, Entries.cons.sizeOf_spec]
      at hn
  | succ n ihn =>
  intro es vt hn hsz hwt
  cases es with
  | nil =>
    refine ⟨[], by simp [packMembers], by simp [depthE], ?_⟩
    intro fuel rest _
    simp [Entries.count, unpackMembersWith]
  | cons k v rest =>
    simp only [WTentries, Bool.and_eq_true, decide_eq_true_eq] at hwt
    obtain ⟨⟨⟨hklen, hmatch⟩, hwtv⟩, hwtrest⟩ := hwt
    have hszv : sizeOf v < M := by
      have : sizeOf v < sizeOf (Entries.cons k v rest) := by
        simp only [Entries.cons.sizeOf_spec]; omega
      omega
    have hszr : sizeOf rest ≤ M := by
      have : sizeOf rest < sizeOf (Entries.cons k v rest) := by
        simp only [Entries.cons.sizeOf_spec]; omega
      omega
    obtain ⟨vbs, hpack, hdepthv, hunpv⟩ := H vt v hszv hwtv
    rw [hpack] at hmatch
    simp only [decide_eq_true_eq] at hmatch
    have hnr : sizeOf rest ≤ n := by
      have : sizeOf rest < sizeOf (Entries.cons k v rest) := by
        simp only [Entries.cons.sizeOf_spec]; omega
      omega
    obtain ⟨rbs, hpackR, hdR, hunpR⟩ := ihn rest vt hnr hszr hwtrest
    have hbuf := pack_buffer_of_pack vt v vbs hwtv hpack
    by_cases hpad : ADLB_pack_pad_size vt = true
    · rw [if_pos hpad] at hbuf
      refine ⟨vintEncode k.length ++ (k ++ (vintPad vbs.length ++
        (vbs ++ rbs))), ?_, ?_, ?_⟩
      · simp only [packMembers, hbuf, hpackR, Option.bind_eq_bind,
          Option.bind_some]
        simp [List.append_assoc]
      · have h1 := vintPad_length_pos vbs.length
        simp only [depthE, List.length_append, max_le_iff]
        omega
      · intro fuel rest' hf
        simp only [depthE, max_le_iff] at hf
        simp only [Entries.count, unpackMembersWith, List.append_assoc]
        rw [unpack_buffer_plain k _ hklen]
        simp only [Option.bind_eq_bind, Option.some_bind]
        rw [hpad, unpack_buffer_padded vbs _ hmatch]
        simp only [Option.some_bind]
        rw [hunpv fuel hf.1]
        simp only [Option.some_bind]
        rw [show rbs ++ rest' = rbs ++ rest' from rfl]
        have := hunpR fuel rest' hf.2
        rw [this]
        simp
    · rw [if_neg hpad] at hbuf
      have hpadf : ADLB_pack_pad_size vt = false :=
        Bool.eq_false_iff.mpr hpad
      refine ⟨vintEncode k.length ++ (k ++ (vintEncode vbs.length ++
        (vbs ++ rbs))), ?_, ?_, ?_⟩
      · simp only [packMembers, hbuf, hpackR, Option.bind_eq_bind,
          Option.bind_some]
        simp [List.append_assoc]
      · have h1 := vintEncode_length_pos vbs.length
        simp only [depthE, List.length_append, max_le_iff]
        omega
      · intro fuel rest' hf
        simp only [depthE, max_le_iff] at hf
        simp only [Entries.count, unpackMembersWith, List.append_assoc]
        rw [unpack_buffer_plain k _ hklen]
        simp only [Option.bind_eq_bind, Option.some_bind]
        rw [hpadf, unpack_buffer_plain vbs _ hmatch]
        simp only [Option.some_bind]
        rw [hunpv fuel hf.1]
        simp only [Option.some_bind]
        have := hunpR fuel rest' hf.2
        rw [this]
        simp

theorem packElems_rt (M : Nat)
    (H : ∀ t' v', sizeOf v' < M → WTv t' v' = true →
      ∃ bs, ADLB_Pack t' v' = some bs ∧ depthV v' ≤ bs.length + 1 ∧
        ∀ fuel, depthV v' ≤ fuel → unpackFueled fuel t' bs = some v') :
    ∀ (n : Nat) el et, sizeOf el ≤ n → sizeOf el ≤ M →
      WTelems et el = true →
      ∃ bs, packElems et el = some bs ∧ depthL el ≤ bs.length ∧
        ∀ fuel rest, depthL el ≤ fuel →
          unpackElemsWith (unpackFueled fuel) el.count et (bs ++ rest) = some el := by
  intro n
  induction n with
  | zero =>
    intro el et hn _ _
    exfalso
    cases el <;> simp [Elems.nil.sizeOf_spec, Elems.cons.sizeOf_spec] at hn
  | succ n ihn =>
  intro el et hn hsz hwt
  cases el with
  | nil =>
    refine ⟨[], by simp [packElems], by simp [depthL], ?_⟩
    intro fuel rest _
    simp [Elems.count, unpackElemsWith]
  | cons v rest =>
    simp only [WTelems, Bool.and_eq_true, decide_eq_true_eq] at hwt
    obtain ⟨⟨hmatch, hwtv⟩, hwtrest⟩ := hwt
    have hszv : sizeOf v < M := by
      have : sizeOf v < sizeOf (Elems.cons v rest) := by
        simp only [Elems.cons.sizeOf_spec]; omega
      omega
    have hszr : sizeOf rest ≤ M := by
      have : sizeOf rest < sizeOf (Elems.cons v rest) := by
        simp only [Elems.cons.sizeOf_spec]; omega
      omega
    obtain ⟨vbs, hpack, hdepthv, hunpv⟩ := H et v hszv hwtv
    rw [hpack] at hmatch
    simp only [decide_eq_true_eq] at hmatch
    have hnr : sizeOf rest ≤ n := by
      have : sizeOf rest < sizeOf (Elems.cons v rest) := by
        simp only [Elems.cons.sizeOf_spec]; omega
      omega
    obtain ⟨rbs, hpackR, hdR, hunpR⟩ := ihn rest et hnr hszr hwtrest
    have hbuf := pack_buffer_of_pack et v vbs hwtv hpack
    by_cases hpad : ADLB_pack_pad_size et = true
    · rw [if_pos hpad] at hbuf
      refine ⟨vintPad vbs.length ++ (vbs ++ rbs), ?_, ?_, ?_⟩
      · simp only [packElems, hbuf, hpackR, Option.bind_eq_bind,
          Option.bind_some]
        simp [List.append_assoc]
      · have h1 := vintPad_length_pos vbs.length
        simp only [depthL, List.length_append, max_le_iff]
        omega
      · intro fuel rest' hf
        simp only [depthL, max_le_iff] at hf
        simp only [Elems.count, unpackElemsWith, List.append_assoc]
        rw [hpad, unpack_buffer_padded vbs _ hmatch]
        simp only [Option.bind_eq_bind, Option.some_bind]
        rw [hunpv fuel hf.1]
        simp only [Option.some_bind]
        rw [hunpR fuel rest' hf.2]
        simp
    · rw [if_neg hpad] at hbuf
      have hpadf : ADLB_pack_pad_size et = false :=
        Bool.eq_false_iff.mpr hpad
      refine ⟨vintEncode vbs.length ++ (vbs ++ rbs), ?_, ?_, ?_⟩
      · simp only [packElems, hbuf, hpackR, Option.bind_eq_bind,
          Option.bind_some]
        simp [List.append_assoc]
      · have h1 := vintEncode_length_pos vbs.length
        simp only [depthL, List.length_append, max_le_iff]
        omega
      · intro fuel rest' hf
        simp only [depthL, max_le_iff] at hf
        simp only [Elems.count, unpackElemsWith, List.append_assoc]
        rw [hpadf, unpack_buffer_plain vbs _ hmatch]
        simp only [Option.bind_eq_bind, Option.some_bind]
        rw [hunpv fuel hf.1]
        simp only [Option.some_bind]
        rw [hunpR fuel rest' hf.2]
        simp

theorem unpack_container_hdr_of (kt vt n : Nat) (body : List Nat)
    (h1 : kt ≤ intMax) (h2 : vt ≤ intMax) (h3 : n ≤ intMax) :
    ADLB_Unpack_container_hdr (ADLB_Pack_container_hdr n kt vt ++ body) =
      some (kt, vt, n, body) := by
  unfold ADLB_Pack_container_hdr ADLB_Unpack_container_hdr
  rw [show (vintEncode kt ++ vintEncode vt ++ vintEncode n) ++ body =
    vintEncode kt ++ (vintEncode vt ++ (vintEncode n ++ body)) from by simp]
  rw [vintDecode_vintEncode]
  simp only [Option.bind_eq_bind, Option.some_bind, if_pos h1,
    List.drop_left]
  rw [vintDecode_vintEncode]
  simp only [Option.some_bind, if_pos h2, List.drop_left]
  rw [vintDecode_vintEncode]
  simp only [Option.some_bind, if_pos h3, List.drop_left]

theorem unpack_multiset_hdr_of (et n : Nat) (body : List Nat)
    (h1 : et ≤ intMax) (h2 : n ≤ intMax) :
    ADLB_Unpack_multiset_hdr (ADLB_Pack_multiset_hdr n et ++ body) =
      some (et, n, body) := by
  unfold ADLB_Pack_multiset_hdr ADLB_Unpack_multiset_hdr
  rw [show (vintEncode et ++ vintEncode n) ++ body =
    vintEncode et ++ (vintEncode n ++ body) from by simp]
  rw [vintDecode_vintEncode]
  simp only [Option.bind_eq_bind, Option.some_bind, if_pos h1,
    List.drop_left]
  rw [vintDecode_vintEncode]
  simp only [Option.some_bind, if_pos h2, List.drop_left]

theorem pack_unpack_val :
    ∀ (N : Nat) (v : Value) (t : Nat), sizeOf v ≤ N → WTv t v = true →
      ∃ bs, ADLB_Pack t v = some bs ∧ depthV v ≤ bs.length + 1 ∧
        ∀ fuel, depthV v ≤ fuel → unpackFueled fuel t bs = some v := by
  intro N
  induction N with
  | zero =>
    intro v t h _
    exfalso
    cases v <;> simp at h
  | succ N ih =>
    intro v t hsz hwt
    cases v with
    | integer i =>
      simp only [WTv, Bool.and_eq_true, beq_iff_eq, decide_eq_true_eq] at hwt
      obtain ⟨⟨ht, h1⟩, h2⟩ := hwt
      subst ht
      refine ⟨int64ToBytes i, by simp [ADLB_Pack, ADLB_Pack_integer], ?_, ?_⟩
      · simp [depthV]
      · intro fuel hf
        simp only [depthV] at hf
        obtain ⟨f, rfl⟩ : ∃ f, fuel = f + 1 := ⟨fuel - 1, by omega⟩
        simp [unpackFueled, typeINTEGER, ADLB_Unpack_integer,
          int64ToBytes_length, int64OfBytes_int64ToBytes i h1 h2]
    | ref id =>
      simp only [WTv, Bool.and_eq_true, beq_iff_eq, decide_eq_true_eq] at hwt
      obtain ⟨⟨ht, h1⟩, h2⟩ := hwt
      subst ht
      refine ⟨int64ToBytes id, by simp [ADLB_Pack, ADLB_Pack_ref], ?_, ?_⟩
      · simp [depthV]
      · intro fuel hf
        simp only [depthV] at hf
        obtain ⟨f, rfl⟩ : ∃ f, fuel = f + 1 := ⟨fuel - 1, by omega⟩
        simp [unpackFueled, typeREF, typeINTEGER, ADLB_Unpack_ref,
          int64ToBytes_length, int64OfBytes_int64ToBytes id h1 h2]
    | float bits =>
      simp only [WTv, Bool.and_eq_true, beq_iff_eq, decide_eq_true_eq] at hwt
      obtain ⟨ht, h1⟩ := hwt
      subst ht
      refine ⟨natBytesLE 8 bits, by simp [ADLB_Pack, ADLB_Pack_float], ?_, ?_⟩
      · simp [depthV]
      · intro fuel hf
        simp only [depthV] at hf
        obtain ⟨f, rfl⟩ : ∃ f, fuel = f + 1 := ⟨fuel - 1, by omega⟩
        simp [unpackFueled, typeFLOAT, typeINTEGER, typeREF,
          ADLB_Unpack_float, natBytesLE_length,
          natFromBytesLE_natBytesLE 8 bits (by norm_num at h1 ⊢; omega)]
    | str bytes =>
      simp only [WTv, beq_iff_eq] at hwt
      subst hwt
      refine ⟨bytes, by simp [ADLB_Pack, ADLB_Pack_string], ?_, ?_⟩
      · simp [depthV]
      · intro fuel hf
        simp only [depthV] at hf
        obtain ⟨f, rfl⟩ : ∃ f, fuel = f + 1 := ⟨fuel - 1, by omega⟩
        simp [unpackFueled, typeSTRING, typeINTEGER, typeREF, typeFLOAT,
          ADLB_Unpack_string]
    | blob bytes =>
      simp only [WTv, beq_iff_eq] at hwt
      subst hwt
      refine ⟨bytes, by simp [ADLB_Pack, ADLB_Pack_blob], ?_, ?_⟩
      · simp [depthV]
      · intro fuel hf
        simp only [depthV] at hf
        obtain ⟨f, rfl⟩ : ∃ f, fuel = f + 1 := ⟨fuel - 1, by omega⟩
        simp [unpackFueled, typeBLOB, typeINTEGER, typeREF, typeFLOAT,
          typeSTRING, ADLB_Unpack_blob]
    | container kt vt es =>
      simp only [WTv, Bool.and_eq_true, beq_iff_eq, decide_eq_true_eq] at hwt
      obtain ⟨⟨⟨⟨ht, hkt⟩, hvt⟩, hcnt⟩, hwtes⟩ := hwt
      subst ht
      have hszes : sizeOf es ≤ N + 1 := by
        have : sizeOf es < sizeOf (Value.container kt vt es) := by
          simp only [Value.container.sizeOf_spec]; omega
        omega
      have H : ∀ t' v', sizeOf v' < N + 1 → WTv t' v' = true →
          ∃ bs, ADLB_Pack t' v' = some bs ∧ depthV v' ≤ bs.length + 1 ∧
            ∀ fuel, depthV v' ≤ fuel → unpackFueled fuel t' bs = some v' :=
        fun t' v' h hw => ih v' t' (by omega) hw
      obtain ⟨body, hpackM, hdM, hunpM⟩ :=
        packMembers_rt (N + 1) H (sizeOf es) es vt le_rfl hszes hwtes
      refine ⟨ADLB_Pack_container_hdr es.count kt vt ++ body, ?_, ?_, ?_⟩
      · simp [ADLB_Pack, ADLB_Pack_container, hpackM]
      · simp only [depthV, List.length_append]
        omega
      · intro fuel hf
        simp only [depthV] at hf
        obtain ⟨f, rfl⟩ : ∃ f, fuel = f + 1 := ⟨fuel - 1, by omega⟩
        have hchain : unpackFueled (f + 1) typeCONTAINER
            (ADLB_Pack_container_hdr es.count kt vt ++ body) =
            ADLB_Unpack_container (unpackFueled f)
              (ADLB_Pack_container_hdr es.count kt vt ++ body) := by
          simp [unpackFueled, typeCONTAINER, typeINTEGER, typeREF,
            typeFLOAT, typeSTRING, typeBLOB]
        rw [hchain]
        unfold ADLB_Unpack_container
        rw [unpack_container_hdr_of kt vt es.count body hkt hvt hcnt]
        simp only [Option.bind_eq_bind, Option.some_bind]
        have := hunpM f [] (by omega)
        rw [List.append_nil] at this
        rw [this]
        simp
    | multiset et el =>
      simp only [WTv, Bool.and_eq_true, beq_iff_eq, decide_eq_true_eq] at hwt
      obtain ⟨⟨⟨ht, het⟩, hcnt⟩, hwtel⟩ := hwt
      subst ht
      have hszel : sizeOf el ≤ N + 1 := by
        have : sizeOf el < sizeOf (Value.multiset et el) := by
          simp only [Value.multiset.sizeOf_spec]; omega
        omega
      have H : ∀ t' v', sizeOf v' < N + 1 → WTv t' v' = true →
          ∃ bs, ADLB_Pack t' v' = some bs ∧ depthV v' ≤ bs.length + 1 ∧
            ∀ fuel, depthV v' ≤ fuel → unpackFueled fuel t' bs = some v' :=
        fun t' v' h hw => ih v' t' (by omega) hw
      obtain ⟨body, hpackM, hdM, hunpM⟩ :=
        packElems_rt (N + 1) H (sizeOf el) el et le_rfl hszel hwtel
      refine ⟨ADLB_Pack_multiset_hdr el.count et ++ body, ?_, ?_, ?_⟩
      · simp [ADLB_Pack, ADLB_Pack_multiset, hpackM]
      · simp only [depthV, List.length_append]
        omega
      · intro fuel hf
        simp only [depthV] at hf
        obtain ⟨f, rfl⟩ : ∃ f, fuel = f + 1 := ⟨fuel - 1, by omega⟩
        have hchain : unpackFueled (f + 1) typeMULTISET
            (ADLB_Pack_multiset_hdr el.count et ++ body) =
            ADLB_Unpack_multiset (unpackFueled f)
              (ADLB_Pack_multiset_hdr el.count et ++ body) := by
          simp [unpackFueled, typeMULTISET, typeCONTAINER, typeINTEGER,
            typeREF, typeFLOAT, typeSTRING, typeBLOB]
        rw [hchain]
        unfold ADLB_Unpack_multiset
        rw [unpack_multiset_hdr_of et el.count body het hcnt]
        simp only [Option.bind_eq_bind, Option.some_bind]
        have := hunpM f [] (by omega)
        rw [List.append_nil] at this
        rw [this]
        simp

/-- C1: for every well-typed value of every modelled value type
(integer, float, string, blob, ref, container, multiset), unpacking the
result of packing the value yields the value back —
`ADLB_Unpack (ADLB_Pack v) = v`.  The equality proved is structural:
byte-exact for scalars, and exact (type and entry list, hence in
particular the multiset of entries) for containers and multisets. -/
theorem C1_unpack_pack_roundtrip (t : Nat) (v : Value)
    (h : WTv t v = true) :
    ∃ bs, ADLB_Pack t v = some bs ∧ ADLB_Unpack t bs = some v := by
  obtain ⟨bs, hp, hd, hu⟩ := pack_unpack_val (sizeOf v) v t le_rfl h
  exact ⟨bs, hp, hu (bs.length + 1) (by omega)⟩

theorem C1_unpack_pack_roundtrip_witness :
    WTv typeCONTAINER (.container typeSTRING typeINTEGER
      (.cons [107, 0] (.integer 42) .nil)) = true ∧
    ∃ bs, ADLB_Pack typeCONTAINER (.container typeSTRING typeINTEGER
        (.cons [107, 0] (.integer 42) .nil)) = some bs ∧
      ADLB_Unpack typeCONTAINER bs = some (.container typeSTRING
        typeINTEGER (.cons [107, 0] (.integer 42) .nil)) := by
  have hwt : WTv typeCONTAINER (.container typeSTRING typeINTEGER
      (.cons [107, 0] (.integer 42) .nil)) = true := by
    simp [WTv, WTentries, ADLB_Pack, typeCONTAINER, typeINTEGER, typeSTRING,
      ADLB_Pack_integer, int64ToBytes, natBytesLE, intMax, Entries.count]
  exact ⟨hwt, C1_unpack_pack_roundtrip _ _ hwt⟩
theorem tmod_shift (a b : Int) (hb : 0 < b) :
    (if a.tmod b < 0 then a.tmod b + b else a.tmod b) = a % b := by
  obtain ⟨n, rfl⟩ : ∃ n : Nat, b = (n : Int) := ⟨b.toNat, by omega⟩
  cases a with
  | ofNat m =>
    rw [show Int.ofNat m = (m : Int) from rfl]
    rw [Int.tmod_eq_emod (by omega) hb.le]
    rw [if_neg (by
      have := Int.emod_nonneg (m : Int) (show (n : Int) ≠ 0 by omega)
      omega)]
  | negSucc m =>
    simp only [Int.tmod, Int.ofNat_eq_natCast, Nat.succ_eq_add_one]
    rw [Int.negSucc_eq]
    have hn : (0 : Int) < n := hb
    have hdm : n * ((m + 1) / n) + (m + 1) % n = m + 1 :=
      Nat.div_add_mod (m + 1) n
    have hrlt : (m + 1) % n < n := Nat.mod_lt _ (by exact_mod_cast hn)
    have hc : ((m : Int) + 1) =
        (n : Int) * ((m + 1) / n : Nat) + ((m + 1) % n : Nat) := by
      exact_mod_cast hdm.symm
    have hkey : -((m : Int) + 1) =
        ((n : Int) - ((m + 1) % n : Nat)) +
          (n : Int) * (-(((m + 1) / n : Nat) : Int) - 1) := by
      rw [hc]; ring
    rw [hkey, Int.add_mul_emod_self_left]
    split
    · next h =>
      rw [Int.emod_eq_of_lt (by omega) (by omega)]
      omega
    · next h =>
      have hr0 : (((m + 1) % n : Nat) : Int) = 0 := by omega
      rw [hr0]
      simp

/-- C4 (counterexample): with 2 servers in a 4-process communicator,
datum id 1 lives on rank `4 - 2 + (1 % 2) = 3`, not at the rank
`4 - 2 + ((1 - 1) mod 2) = 2` the claim's `(id - 1) mod S` formula
gives: `ADLB_Locate` uses `id % S`, not `(id - 1) % S`. -/
theorem C4_locate_counterexample :
    ADLB_Locate 2 4 1 = 3 ∧ 4 - 2 + ((1 - 1) % 2 : Int) = 2 := by
  constructor <;> decide

/-- C4 (amended): for every datum id and positive server count `S`, the
owning rank is `(id mod S)` (mathematical modulus, negative ids
continuing the pattern) placed after the worker ranks at the top of the
communicator; in particular `ADLB_Locate` depends only on the id, the
server count and the communicator size. -/
theorem C4_locate_shard (S C id : Int) (hS : 0 < S) :
    ADLB_Locate S C id = C - S + id % S := by
  show C - S + (if id.tmod S < 0 then id.tmod S + S else id.tmod S) =
    C - S + id % S
  rw [tmod_shift id S hS]

theorem C4_locate_shard_witness :
    (0 : Int) < 2 ∧ ADLB_Locate 2 4 (-1) = 4 - 2 + (-1) % 2 :=
  ⟨by decide, C4_locate_shard 2 4 (-1) (by decide)⟩

theorem data_unique_iter (s : Int) :
    ∀ (n : Nat) (st : DataState) (u L : Int), st.servers = s →
      st.lastId = L → st.uniqueId = u → 0 < s → u + n * s < L →
      (data_unique (uniqueAfter st n)).2 = .ok (u + n * s) := by
  intro n
  induction n with
  | zero =>
    intro st u L hs hL hu hspos hlim
    simp only [uniqueAfter, data_unique, hu, hL]
    rw [if_neg (by push_cast at hlim; omega)]
    push_cast
    norm_num
  | succ n ih =>
    intro st u L hs hL hu hspos hlim
    have hexp : ((n : Int) + 1) * s = (n : Int) * s + s := by ring
    have hns : 0 ≤ (n : Int) * s :=
      mul_nonneg (by positivity) hspos.le
    have hlim' : u + ((n : Nat) + 1) * s < L := by push_cast at hlim ⊢; omega
    rw [hexp] at hlim'
    have hstep : (data_unique st).1 = { st with uniqueId := u + s } := by
      unfold data_unique
      rw [hu, hL, hs, if_neg (by omega)]
    show (data_unique (uniqueAfter (data_unique st).1 n)).2 = _
    rw [hstep]
    have := ih { st with uniqueId := u + s } (u + s) L hs hL rfl hspos
      (by push_cast; omega)
    rw [this]
    congr 1
    push_cast
    ring

/-- C9 (counterexample): on server 0 of 3, the first `data_unique`
(call number `n = 0`) returns 3, not `i + n·S = 0`: `data_init` skips
id 0, the null id, by starting server 0's counter at `S`. -/
theorem C9_unique_counterexample :
    (data_unique (data_init 3 0)).2 = .ok 3 ∧ (3 : Int) ≠ 0 + 0 * 3 :=
  ⟨rfl, by decide⟩

/-- C9 (amended): fresh ids are minted per server from a server-local
counter stepping by `S`; the counter starts at the server index `i`
except on server 0, where it starts at `S` (id 0 is `ADLB_DATA_ID_NULL`
and is skipped).  With no overflow, the `n`-th call (from 0) on server
`i` returns `start + n·S` with `start = if i = 0 then S else i`. -/
theorem C9_unique_stride (s i : Int) (n : Nat) (hs : 0 < s)
    (hi : 0 ≤ i) (his : i < s)
    (hlim : (if i = 0 then i + s else i) + n * s < longMax - s - 1) :
    (data_unique (uniqueAfter (data_init s i) n)).2 =
      .ok ((if i = 0 then i + s else i) + n * s) :=
  data_unique_iter s n (data_init s i) _ _ rfl rfl rfl hs hlim

theorem C9_unique_stride_witness :
    ((0 : Int) < 3 ∧ (0 : Int) ≤ 1 ∧ (1 : Int) < 3 ∧
      (if (1 : Int) = 0 then 1 + 3 else 1) + 2 * 3 < longMax - 3 - 1) ∧
    (data_unique (uniqueAfter (data_init 3 1) 2)).2 =
      .ok ((if (1 : Int) = 0 then 1 + 3 else 1) + 2 * 3) :=
  ⟨⟨by decide, by decide, by decide, by decide⟩,
    C9_unique_stride 3 1 2 (by decide) (by decide) (by decide)
      (by decide)⟩

theorem alookup_aset_self {α β : Type} [DecidableEq α] :
    ∀ (l : List (α × β)) (k : α) (v : β), (alookup l k).isSome →
      alookup (aset l k v) k = some v := by
  intro l
  induction l with
  | nil => intro k v h; simp [alookup] at h
  | cons p rest ih =>
    intro k v h
    by_cases hk : p.1 = k
    · simp [aset, alookup, hk]
    · simp only [alookup, aset, if_neg hk] at h ⊢
      exact ih k v h

/-- C8: `data_retrieve` discriminates its failure cases with distinct
codes: an id absent from the store is `NOT_FOUND`; a datum that exists
but is unset (a scalar before its first store) is `UNSET`; a subscript
an existing container lacks is `SUBSCRIPT_NOT_FOUND`; and `NOT_FOUND`
and `SUBSCRIPT_NOT_FOUND` are distinct codes. -/
theorem C8_retrieve_codes (st : DataState) (id : Int) :
    (alookup st.tds id = none →
      ∀ sub, data_retrieve st id sub = .error .ERROR_NOT_FOUND) ∧
    (∀ d, alookup st.tds id = some d → d.set = false →
      data_retrieve st id none = .error .ERROR_UNSET) ∧
    (∀ d kt vt members s, alookup st.tds id = some d →
      d.type = typeCONTAINER → d.data = .cont kt vt members →
      alookup members s = none →
      data_retrieve st id (some s) = .error .ERROR_SUBSCRIPT_NOT_FOUND) ∧
    DataCode.ERROR_NOT_FOUND ≠ DataCode.ERROR_SUBSCRIPT_NOT_FOUND := by
  refine ⟨?_, ?_, ?_, by decide⟩
  · intro h sub
    cases sub <;> simp [data_retrieve, h]
  · intro d hd hset
    simp [data_retrieve, hd, hset]
  · intro d kt vt members s hd htype hdata hmem
    simp [data_retrieve, hd, htype, hdata, hmem]

theorem C8_retrieve_codes_witness :
    (data_retrieve ((data_create ((data_create (data_init 1 0) 5
        typeINTEGER 0 0 ⟨1, 1, false⟩).1) 9 typeCONTAINER typeSTRING
        typeINTEGER ⟨1, 1, false⟩).1) 77 none =
      .error .ERROR_NOT_FOUND) ∧
    (data_retrieve ((data_create ((data_create (data_init 1 0) 5
        typeINTEGER 0 0 ⟨1, 1, false⟩).1) 9 typeCONTAINER typeSTRING
        typeINTEGER ⟨1, 1, false⟩).1) 5 none =
      .error .ERROR_UNSET) ∧
    (data_retrieve ((data_create ((data_create (data_init 1 0) 5
        typeINTEGER 0 0 ⟨1, 1, false⟩).1) 9 typeCONTAINER typeSTRING
        typeINTEGER ⟨1, 1, false⟩).1) 9 (some [107]) =
      .error .ERROR_SUBSCRIPT_NOT_FOUND) ∧
    DataCode.ERROR_NOT_FOUND ≠ DataCode.ERROR_SUBSCRIPT_NOT_FOUND := by
  refine ⟨(C8_retrieve_codes ((data_create ((data_create (data_init 1 0) 5
        typeINTEGER 0 0 ⟨1, 1, false⟩).1) 9 typeCONTAINER typeSTRING
        typeINTEGER ⟨1, 1, false⟩).1) 77).1 rfl none,
    (C8_retrieve_codes ((data_create ((data_create (data_init 1 0) 5
        typeINTEGER 0 0 ⟨1, 1, false⟩).1) 9 typeCONTAINER typeSTRING
        typeINTEGER ⟨1, 1, false⟩).1) 5).2.1
      ⟨typeINTEGER, 1, 1, false, false, .uninit, []⟩ rfl rfl,
    (C8_retrieve_codes ((data_create ((data_create (data_init 1 0) 5
        typeINTEGER 0 0 ⟨1, 1, false⟩).1) 9 typeCONTAINER typeSTRING
        typeINTEGER ⟨1, 1, false⟩).1) 9).2.2.1
      ⟨typeCONTAINER, 1, 1, true, false,
        .cont typeSTRING typeINTEGER [], []⟩
      typeSTRING typeINTEGER [] [107] rfl rfl rfl rfl,
    (C8_retrieve_codes (data_init 1 0) 0).2.2.2⟩

/-- C10: a container slot reserved by `data_insert_atomic` but not yet
filled (the unlinked `NULL` sentinel) is indistinguishable from an
absent subscript to readers: `data_retrieve` answers
`SUBSCRIPT_NOT_FOUND` for the absent subscript, `data_insert_atomic`
then reserves exactly the unlinked sentinel, and `data_retrieve` on the
reserved slot still answers `SUBSCRIPT_NOT_FOUND`. -/
theorem C10_unlinked_like_absent (st : DataState) (id : Int)
    (d : AdlbDatum) (kt vt : Nat)
    (members : List (List Nat × Option Value)) (s : List Nat)
    (hd : alookup st.tds id = some d) (htype : d.type = typeCONTAINER)
    (hdata : d.data = .cont kt vt members)
    (hmem : alookup members s = none) :
    data_retrieve st id (some s) = .error .ERROR_SUBSCRIPT_NOT_FOUND ∧
    (data_insert_atomic st id s).2 = .ok (true, false) ∧
    data_retrieve (data_insert_atomic st id s).1 id (some s) =
      .error .ERROR_SUBSCRIPT_NOT_FOUND := by
  refine ⟨by simp [data_retrieve, hd, htype, hdata, hmem], ?_, ?_⟩
  · simp [data_insert_atomic, hd, htype, hdata, hmem]
  · have hstep : (data_insert_atomic st id s).1 = { st with tds := aset st.tds id { d with data := .cont kt vt (aadd members s none) } } := by
      simp [data_insert_atomic, hd, htype, hdata, hmem]
    rw [hstep]
    have hlook : alookup (aset st.tds id { d with data := .cont kt vt (aadd members s none) }) id = some { d with data := .cont kt vt (aadd members s none) } :=
      alookup_aset_self _ _ _ (by rw [hd]; rfl)
    simp only [data_retrieve, hlook]
    simp [htype, aadd, alookup]

theorem C10_unlinked_like_absent_witness :
    data_retrieve ((data_create (data_init 1 0) 9 typeCONTAINER
        typeSTRING typeINTEGER ⟨1, 1, false⟩).1) 9 (some [107]) =
      .error .ERROR_SUBSCRIPT_NOT_FOUND ∧
    (data_insert_atomic ((data_create (data_init 1 0) 9 typeCONTAINER
        typeSTRING typeINTEGER ⟨1, 1, false⟩).1) 9 [107]).2 =
      .ok (true, false) ∧
    data_retrieve (data_insert_atomic ((data_create (data_init 1 0) 9
        typeCONTAINER typeSTRING typeINTEGER ⟨1, 1, false⟩).1) 9
        [107]).1 9 (some [107]) =
      .error .ERROR_SUBSCRIPT_NOT_FOUND :=
  C10_unlinked_like_absent _ 9
    ⟨typeCONTAINER, 1, 1, true, false,
      .cont typeSTRING typeINTEGER [], []⟩
    typeSTRING typeINTEGER [] [107] rfl rfl rfl rfl

/-- C7 (counterexample): reserve subscript `[107]` of container 9 with
`data_insert_atomic`, then call `data_insert_atomic` again on the same
pair: the subscript is present but its value has not been stored (the
slot is still unlinked), yet the second call reports `created = false`
— not `created = true` as the claim states. -/
theorem C7_insert_atomic_counterexample :
    (data_insert_atomic ((data_insert_atomic ((data_create
        (data_init 1 0) 9 typeCONTAINER typeSTRING typeINTEGER
        ⟨1, 1, false⟩).1) 9 [107]).1) 9 [107]).2 =
      .ok (false, false) ∧
    ∀ b, (data_insert_atomic ((data_insert_atomic ((data_create
        (data_init 1 0) 9 typeCONTAINER typeSTRING typeINTEGER
        ⟨1, 1, false⟩).1) 9 [107]).1) 9 [107]).2 ≠ .ok (true, b) := by
  refine ⟨rfl, ?_⟩
  intro b h
  rw [show (data_insert_atomic ((data_insert_atomic ((data_create
      (data_init 1 0) 9 typeCONTAINER typeSTRING typeINTEGER
      ⟨1, 1, false⟩).1) 9 [107]).1) 9 [107]).2 =
    .ok (false, false) from rfl] at h
  simp at h

/-- C7 (amended): `data_insert_atomic` on an existing container reports
`created = true` only when the subscript is absent (inserting the
unlinked sentinel); when the subscript is present — whether or not its
value has been stored — it reports `created = false`, together with
`value_present` saying whether the slot is linked to a stored value. -/
theorem C7_insert_atomic_amended (st : DataState) (id : Int)
    (d : AdlbDatum) (kt vt : Nat)
    (members : List (List Nat × Option Value)) (sub : List Nat)
    (hd : alookup st.tds id = some d) (htype : d.type = typeCONTAINER)
    (hdata : d.data = .cont kt vt members) :
    (alookup members sub = none →
      (data_insert_atomic st id sub).2 = .ok (true, false) ∧
      (data_insert_atomic st id sub).1.tds = aset st.tds id { d with data := .cont kt vt (aadd members sub none) }) ∧
    (∀ cell, alookup members sub = some cell →
      data_insert_atomic st id sub = (st, .ok (false, cell.isSome))) := by
  constructor
  · intro hmem
    constructor <;> simp [data_insert_atomic, hd, htype, hdata, hmem]
  · intro cell hmem
    simp [data_insert_atomic, hd, htype, hdata, hmem]

theorem C7_insert_atomic_amended_witness :
    (data_insert_atomic ((data_insert_atomic ((data_create
        (data_init 1 0) 9 typeCONTAINER typeSTRING typeINTEGER
        ⟨1, 1, false⟩).1) 9 [107]).1) 9 [107]) =
      ((data_insert_atomic ((data_create (data_init 1 0) 9
        typeCONTAINER typeSTRING typeINTEGER ⟨1, 1, false⟩).1) 9
        [107]).1, .ok (false, Option.isSome (none : Option Value))) :=
  (C7_insert_atomic_amended ((data_insert_atomic ((data_create
      (data_init 1 0) 9 typeCONTAINER typeSTRING typeINTEGER
      ⟨1, 1, false⟩).1) 9 [107]).1) 9
    ⟨typeCONTAINER, 1, 1, true, false,
      .cont typeSTRING typeINTEGER [([107], none)], []⟩
    typeSTRING typeINTEGER [([107], none)] [107] rfl rfl rfl).2
    none rfl

/-- C3 (counterexample): create an integer datum with `write_refcount`
2, store 42 (releasing one write refcount), then store 43 with no
subscript: the value is already stored (`status.set` is true), yet the
second store succeeds — no `DOUBLE_WRITE` — and overwrites the value.
`data_store` checks only `write_refcount`, never `status.set`. -/
theorem C3_double_write_counterexample :
    (alookup ((data_store true ((data_create (data_init 1 0) 1
        typeINTEGER 0 0 ⟨1, 2, false⟩).1) 1 none (int64ToBytes 42)
        typeINTEGER ⟨0, 1⟩).1).tds 1).map (fun d => d.set) =
      some true ∧
    (data_store true ((data_store true ((data_create (data_init 1 0) 1
        typeINTEGER 0 0 ⟨1, 2, false⟩).1) 1 none (int64ToBytes 42)
        typeINTEGER ⟨0, 1⟩).1) 1 none (int64ToBytes 43) typeINTEGER
        ⟨0, 1⟩).2 = .ok ⟨[], [], []⟩ ∧
    (alookup ((data_store true ((data_store true ((data_create
        (data_init 1 0) 1 typeINTEGER 0 0 ⟨1, 2, false⟩).1) 1 none
        (int64ToBytes 42) typeINTEGER ⟨0, 1⟩).1) 1 none
        (int64ToBytes 43) typeINTEGER ⟨0, 1⟩).1).tds 1).map
      (fun d => d.data) = some (.scalar (.integer 43)) :=
  ⟨rfl, rfl, rfl⟩

/-- C3 (amended): any store — with or without subscript — on a datum
whose `write_refcount` is 0 returns `DOUBLE_WRITE` and leaves the store
unchanged; that is the only double-write protection for top-level
stores (`status.set` is not consulted), so a second store of an
already-set scalar is rejected exactly when its write refcount has
reached 0 (the usual case, a store typically releasing the writer's
refcount). -/
theorem C3_store_closed_double_write (enabled : Bool) (st : DataState)
    (id : Int) (sub : Option (List Nat)) (buffer : List Nat)
    (type : Nat) (decr : Refcounts) (d : AdlbDatum)
    (hd : alookup st.tds id = some d) (hw : d.write_refcount = 0) :
    data_store enabled st id sub buffer type decr =
      (st, .error .ERROR_DOUBLE_WRITE) := by
  simp [data_store, hd, hw]

theorem C3_store_closed_double_write_witness :
    data_store true ((data_store true ((data_create (data_init 1 0) 1
        typeINTEGER 0 0 ⟨1, 1, false⟩).1) 1 none (int64ToBytes 42)
        typeINTEGER ⟨0, 1⟩).1) 1 none (int64ToBytes 43) typeINTEGER
        ⟨0, 1⟩ =
      ((data_store true ((data_create (data_init 1 0) 1 typeINTEGER 0 0
        ⟨1, 1, false⟩).1) 1 none (int64ToBytes 42) typeINTEGER
        ⟨0, 1⟩).1, .error .ERROR_DOUBLE_WRITE) :=
  C3_store_closed_double_write true _ 1 none (int64ToBytes 43)
    typeINTEGER ⟨0, 1⟩
    ⟨typeINTEGER, 1, 0, true, false, .scalar (.integer 42), []⟩ rfl rfl

/-- C6 (counterexample): on a permanent datum with `write_refcount` 3,
`refcount_incr` with change `(-1, -1)` succeeds and is dropped
entirely: the write refcount stays 3, whereas the claim says the write
component is "still applied normally" (which would leave 2).
`refcount_impl` returns as soon as it sees a non-zero read component on
a permanent datum, skipping the write part too. -/
theorem C6_refcount_permanent_counterexample :
    (data_reference_count true ((data_create (data_init 1 0) 4
        typeINTEGER 0 0 ⟨1, 3, true⟩).1) 4 ⟨-1, -1⟩ ADLB_NO_RC).2 =
      .ok ⟨false, ADLB_NO_RC, []⟩ ∧
    (alookup ((data_reference_count true ((data_create (data_init 1 0)
        4 typeINTEGER 0 0 ⟨1, 3, true⟩).1) 4 ⟨-1, -1⟩
        ADLB_NO_RC).1).tds 4).map (fun d => d.write_refcount) =
      some 3 ∧
    (3 : Int) ≠ 3 - 1 :=
  ⟨rfl, rfl, by decide⟩

/-- C6 (amended): a non-zero read component is silently dropped when
read refcounting is globally disabled — the client stub
(`xlb_refcount_incr`) zeroes it and the write component is still
applied normally through the server — but on a *permanent* datum
`refcount_impl` returns success immediately on seeing the non-zero
read component, so the write component of the same change is *not*
applied and the datum is left untouched. -/
theorem C6_refcount_read_drop (st : DataState) (id : Int)
    (change : Refcounts) :
    (∀ d, alookup st.tds id = some d → d.permanent = true →
      change.read_refcount ≠ 0 →
      refcount_impl true st id change ADLB_NO_RC =
        (st, .ok ⟨false, ADLB_NO_RC, []⟩)) ∧
    (xlb_refcount_incr false st id change =
      if change.write_refcount = 0 then (st, .ok ⟨false, ADLB_NO_RC, []⟩)
      else data_reference_count false st id ⟨0, change.write_refcount⟩
        ADLB_NO_RC) := by
  constructor
  · intro d hd hperm hr
    simp [refcount_impl, refcount_impl_f, hd, hperm, hr, ADLB_RC_IS_NULL,
      ADLB_NO_RC]
  · by_cases hw : change.write_refcount = 0
    · simp [xlb_refcount_incr, ADLB_RC_IS_NULL, hw, ADLB_NO_RC]
    · simp [xlb_refcount_incr, ADLB_RC_IS_NULL, hw, ADLB_NO_RC]

theorem C6_refcount_read_drop_witness :
    refcount_impl true ((data_create (data_init 1 0) 4 typeINTEGER 0 0
        ⟨1, 3, true⟩).1) 4 ⟨-1, -1⟩ ADLB_NO_RC =
      (((data_create (data_init 1 0) 4 typeINTEGER 0 0
        ⟨1, 3, true⟩).1), .ok ⟨false, ADLB_NO_RC, []⟩) ∧
    xlb_refcount_incr false ((data_create (data_init 1 0) 4 typeINTEGER
        0 0 ⟨1, 3, true⟩).1) 4 ⟨-1, -1⟩ =
      (if (-1 : Int) = 0 then (((data_create (data_init 1 0) 4
        typeINTEGER 0 0 ⟨1, 3, true⟩).1), .ok ⟨false, ADLB_NO_RC, []⟩)
      else data_reference_count false ((data_create (data_init 1 0) 4
        typeINTEGER 0 0 ⟨1, 3, true⟩).1) 4 ⟨0, -1⟩ ADLB_NO_RC) :=
  ⟨(C6_refcount_read_drop ((data_create (data_init 1 0) 4 typeINTEGER
      0 0 ⟨1, 3, true⟩).1) 4 ⟨-1, -1⟩).1
    ⟨typeINTEGER, 1, 3, false, true, .uninit, []⟩ rfl rfl (by decide),
   (C6_refcount_read_drop ((data_create (data_init 1 0) 4 typeINTEGER
      0 0 ⟨1, 3, true⟩).1) 4 ⟨-1, -1⟩).2⟩

theorem alookup_aset_ne {α β : Type} [DecidableEq α] :
    ∀ (l : List (α × β)) (k k' : α) (v : β), k' ≠ k →
      alookup (aset l k v) k' = alookup l k' := by
  intro l
  induction l with
  | nil => intro k k' v h; rfl
  | cons p rest ih =>
    intro k k' v h
    by_cases hk : p.1 = k
    · simp [aset, alookup, hk, Ne.symm h]
    · simp only [aset, alookup, if_neg hk]
      by_cases hk' : p.1 = k'
      · simp [hk']
      · simp only [if_neg hk']
        exact ih k k' v h

theorem aset_self {α β : Type} [DecidableEq α] :
    ∀ (l : List (α × β)) (k : α) (v : β), alookup l k = some v →
      aset l k v = l := by
  intro l
  induction l with
  | nil => intro k v h; rfl
  | cons p rest ih =>
    intro k v h
    obtain ⟨k', v'⟩ := p
    by_cases hk : k' = k
    · subst hk
      simp only [alookup, if_pos rfl] at h
      cases h
      simp [aset]
    · simp only [alookup, if_neg hk] at h
      simp only [aset, if_neg hk]
      rw [ih k v h]

theorem aset_aset {α β : Type} [DecidableEq α] :
    ∀ (l : List (α × β)) (k : α) (v w : β),
      aset (aset l k v) k w = aset l k w := by
  intro l
  induction l with
  | nil => intro k v w; rfl
  | cons p rest ih =>
    intro k v w
    by_cases hk : p.1 = k
    · simp [aset, hk]
    · simp only [aset, if_neg hk]
      rw [ih]

theorem refcount_impl_read_only (st : DataState) (id : Int)
    (d : AdlbDatum) (n : Int) (hd : alookup st.tds id = some d)
    (hperm : d.permanent = false) (hrd : 0 < d.read_refcount)
    (hn : n ≠ 0) (hpos : 0 < d.read_refcount + n) :
    refcount_impl true st id ⟨n, 0⟩ ADLB_NO_RC =
      ({ st with tds := aset st.tds id { d with read_refcount := d.read_refcount + n } },
        .ok ⟨false, ADLB_NO_RC, []⟩) := by
  have hr0 : d.read_refcount > 0 := hrd
  have hge : d.read_refcount + n ≥ 0 := by omega
  have hngc : ¬(d.read_refcount + n ≤ 0) := by omega
  simp only [refcount_impl, refcount_impl_f, hd]
  simp [ADLB_NO_RC, ADLB_RC_IS_NULL, hn, hperm, hr0, hge, hngc, aset_aset]


/-- C5: for every subscribed `(id, subscript)` pair the container holds
exactly one read refcount on behalf of the whole subscription set:
(1) the first `container_reference` on a fresh pair records the
subscriber and leaves the datum table untouched — the caller's read
refcount stays held; (2) every further subscriber on the same pair has
its extra read refcount released at once (the count drops by one) while
the subscriber joins the list; (3) when the subscript is filled,
`insert_notifications` read-increments each referand of the stored
value once per waiting reference, releases the single held read
refcount of the container, and drains the pair's reference list. -/
theorem C5_one_refcount_per_subscription (cid : Int) (sub : List Nat)
    (kt vt : Nat) (members : List (List Nat × Option Value)) :
    (∀ (st : DataState) (d : AdlbDatum) (reference : Int),
      alookup st.tds cid = some d →
      d.data = .cont kt vt members →
      alookup members sub = none →
      0 < d.write_refcount → 0 < d.read_refcount →
      alookup st.container_references (cid, sub) = none →
      data_container_reference st cid sub reference vt =
        ({ st with container_references := aadd st.container_references (cid, sub) [reference] }, .ok none))
    ∧
    (∀ (st : DataState) (d : AdlbDatum) (L : List Int) (reference : Int),
      alookup st.tds cid = some d →
      d.data = .cont kt vt members →
      alookup members sub = none →
      0 < d.write_refcount → 2 ≤ d.read_refcount →
      alookup st.container_references (cid, sub) = some L →
      data_container_reference st cid sub reference vt =
        ({ { st with tds := aset st.tds cid { d with read_refcount := d.read_refcount - 1 } } with container_references := aset st.container_references (cid, sub) (unique_insert L reference) }, .ok none))
    ∧
    (∀ (st : DataState) (d : AdlbDatum) (L : List Int) (r : Int)
        (dr : AdlbDatum),
      alookup st.tds cid = some d →
      d.permanent = false → 2 ≤ d.read_refcount →
      alookup st.container_references (cid, sub) = some L → L ≠ [] →
      r ≠ cid → alookup st.tds r = some dr →
      0 < dr.read_refcount → dr.permanent = false →
      alookup st.container_ix_listeners (cid, sub) = none →
      (insert_notifications true st cid sub (.ref r) vt).2 =
        .ok (L, [], false)
      ∧ alookup (insert_notifications true st cid sub (.ref r) vt).1.tds r =
          some { dr with read_refcount := dr.read_refcount + (L.length : Int) }
      ∧ alookup (insert_notifications true st cid sub (.ref r) vt).1.tds cid =
          some { d with read_refcount := d.read_refcount - 1 }
      ∧ (insert_notifications true st cid sub (.ref r) vt).1.container_references =
          aremove st.container_references (cid, sub)) := by
  refine ⟨?_, ?_, ?_⟩
  · intro st d reference hd hdata hmem hw hr hrefs
    simp [data_container_reference, hd, hdata, hmem, hrefs, unique_insert,
      hw, hr, not_lt]
  · intro st d L reference hd hdata hmem hw hr2 hrefs
    have hw' : ¬ d.write_refcount ≤ 0 := by omega
    have hr' : ¬ d.read_refcount ≤ 0 := by omega
    have hlt : ¬ d.read_refcount < 2 := by omega
    simp [data_container_reference, hd, hdata, hmem, hrefs, hw', hr', hlt,
      not_lt]
  · intro st d L r dr hd hperm hr2 hrefs hL hrc hdr hdrr hdrp hix
    have hlen : (L.length : Int) ≠ 0 := by
      simpa using hL
    have hlpos : (0 : Int) ≤ (L.length : Int) := Int.natCast_nonneg _
    have hpos1 : 0 < dr.read_refcount + (L.length : Int) := by omega
    have h1 := refcount_impl_read_only { st with container_references := aremove st.container_references (cid, sub) } r dr (L.length : Int) hdr hdrp hdrr hlen hpos1
    have hd4 : alookup (aset st.tds r { dr with read_refcount := dr.read_refcount + (L.length : Int) }) cid = some d := by
      rw [alookup_aset_ne _ _ _ _ (Ne.symm hrc)]
      exact hd
    have h2 := refcount_impl_read_only { { st with container_references := aremove st.container_references (cid, sub) } with tds := aset st.tds r { dr with read_refcount := dr.read_refcount + (L.length : Int) } } cid d (-1) hd4 hperm (by omega) (by decide) (by omega)
    have he : d.read_refcount + (-1) = d.read_refcount - 1 := by ring
    rw [he] at h2
    have hincr : incr_rc_referand true { st with container_references := aremove st.container_references (cid, sub) } (.ref r) ⟨(L.length : Int), 0⟩ = ({ { st with container_references := aremove st.container_references (cid, sub) } with tds := aset st.tds r { dr with read_refcount := dr.read_refcount + (L.length : Int) } }, .ok ()) := by
      simp only [incr_rc_referand, valueReferands, apply_rc_list, h1]
    have hfin : insert_notifications true st cid sub (.ref r) vt = ({ { { st with container_references := aremove st.container_references (cid, sub) } with tds := aset st.tds r { dr with read_refcount := dr.read_refcount + (L.length : Int) } } with tds := aset (aset st.tds r { dr with read_refcount := dr.read_refcount + (L.length : Int) }) cid { d with read_refcount := d.read_refcount - 1 } }, .ok (L, [], false)) := by
      simp only [insert_notifications, hrefs, if_true, hincr, h2, hix]
    refine ⟨by rw [hfin], ?_, ?_, by rw [hfin]⟩
    · rw [hfin]
      show alookup (aset (aset st.tds r _) cid _) r = _
      rw [alookup_aset_ne _ _ _ _ hrc]
      exact alookup_aset_self _ _ _ (by rw [hdr]; rfl)
    · rw [hfin]
      show alookup (aset (aset st.tds r _) cid _) cid = _
      exact alookup_aset_self _ _ _ (by rw [hd4]; rfl)


theorem C5_one_refcount_per_subscription_witness :
    (data_container_reference ⟨[(9, ⟨typeCONTAINER, 3, 1, true, false, .cont typeSTRING typeINTEGER [], []⟩), (5, ⟨typeINTEGER, 1, 1, false, false, .uninit, []⟩)], [], [], [], 1, 1, 100⟩ 9 [107] 77 typeINTEGER =
      (⟨[(9, ⟨typeCONTAINER, 3, 1, true, false, .cont typeSTRING typeINTEGER [], []⟩), (5, ⟨typeINTEGER, 1, 1, false, false, .uninit, []⟩)], [((9, [107]), [77])], [], [], 1, 1, 100⟩, .ok none))
    ∧
    (data_container_reference ⟨[(9, ⟨typeCONTAINER, 3, 1, true, false, .cont typeSTRING typeINTEGER [], []⟩), (5, ⟨typeINTEGER, 1, 1, false, false, .uninit, []⟩)], [((9, [107]), [77])], [], [], 1, 1, 100⟩ 9 [107] 88 typeINTEGER =
      (⟨[(9, ⟨typeCONTAINER, 2, 1, true, false, .cont typeSTRING typeINTEGER [], []⟩), (5, ⟨typeINTEGER, 1, 1, false, false, .uninit, []⟩)], [((9, [107]), [77, 88])], [], [], 1, 1, 100⟩, .ok none))
    ∧
    ((insert_notifications true ⟨[(9, ⟨typeCONTAINER, 2, 1, true, false, .cont typeSTRING typeINTEGER [], []⟩), (5, ⟨typeINTEGER, 1, 1, false, false, .uninit, []⟩)], [((9, [107]), [77, 88])], [], [], 1, 1, 100⟩ 9 [107] (.ref 5) typeINTEGER).2 =
        .ok ([77, 88], [], false)
      ∧ alookup (insert_notifications true ⟨[(9, ⟨typeCONTAINER, 2, 1, true, false, .cont typeSTRING typeINTEGER [], []⟩), (5, ⟨typeINTEGER, 1, 1, false, false, .uninit, []⟩)], [((9, [107]), [77, 88])], [], [], 1, 1, 100⟩ 9 [107] (.ref 5) typeINTEGER).1.tds 5 =
          some ⟨typeINTEGER, 3, 1, false, false, .uninit, []⟩
      ∧ alookup (insert_notifications true ⟨[(9, ⟨typeCONTAINER, 2, 1, true, false, .cont typeSTRING typeINTEGER [], []⟩), (5, ⟨typeINTEGER, 1, 1, false, false, .uninit, []⟩)], [((9, [107]), [77, 88])], [], [], 1, 1, 100⟩ 9 [107] (.ref 5) typeINTEGER).1.tds 9 =
          some ⟨typeCONTAINER, 1, 1, true, false, .cont typeSTRING typeINTEGER [], []⟩
      ∧ (insert_notifications true ⟨[(9, ⟨typeCONTAINER, 2, 1, true, false, .cont typeSTRING typeINTEGER [], []⟩), (5, ⟨typeINTEGER, 1, 1, false, false, .uninit, []⟩)], [((9, [107]), [77, 88])], [], [], 1, 1, 100⟩ 9 [107] (.ref 5) typeINTEGER).1.container_references = []) := by
  refine ⟨?_, ?_, ?_⟩
  · exact (C5_one_refcount_per_subscription 9 [107] typeSTRING typeINTEGER []).1
      ⟨[(9, ⟨typeCONTAINER, 3, 1, true, false, .cont typeSTRING typeINTEGER [], []⟩), (5, ⟨typeINTEGER, 1, 1, false, false, .uninit, []⟩)], [], [], [], 1, 1, 100⟩
      ⟨typeCONTAINER, 3, 1, true, false, .cont typeSTRING typeINTEGER [], []⟩
      77 rfl rfl rfl (by decide) (by decide) rfl
  · exact (C5_one_refcount_per_subscription 9 [107] typeSTRING typeINTEGER []).2.1
      ⟨[(9, ⟨typeCONTAINER, 3, 1, true, false, .cont typeSTRING typeINTEGER [], []⟩), (5, ⟨typeINTEGER, 1, 1, false, false, .uninit, []⟩)], [((9, [107]), [77])], [], [], 1, 1, 100⟩
      ⟨typeCONTAINER, 3, 1, true, false, .cont typeSTRING typeINTEGER [], []⟩
      [77] 88 rfl rfl rfl (by decide) (by decide) rfl
  · exact (C5_one_refcount_per_subscription 9 [107] typeSTRING typeINTEGER []).2.2
      ⟨[(9, ⟨typeCONTAINER, 2, 1, true, false, .cont typeSTRING typeINTEGER [], []⟩), (5, ⟨typeINTEGER, 1, 1, false, false, .uninit, []⟩)], [((9, [107]), [77, 88])], [], [], 1, 1, 100⟩
      ⟨typeCONTAINER, 2, 1, true, false, .cont typeSTRING typeINTEGER [], []⟩
      [77, 88] 5
      ⟨typeINTEGER, 1, 1, false, false, .uninit, []⟩
      rfl rfl (by decide) rfl (by decide) (by decide) rfl (by decide) rfl rfl
theorem mem_of_alookup {α β : Type} [DecidableEq α] :
    ∀ (l : List (α × β)) (k : α) (v : β), alookup l k = some v →
      (k, v) ∈ l := by
  intro l
  induction l with
  | nil => intro k v h; simp [alookup] at h
  | cons p rest ih =>
    intro k v h
    obtain ⟨a, b⟩ := p
    by_cases ha : a = k
    · subst ha
      simp only [alookup, if_pos rfl] at h
      cases h
      exact List.mem_cons_self _ _
    · simp only [alookup, if_neg ha] at h
      exact List.mem_cons_of_mem _ (ih k v h)

theorem mem_aset {α β : Type} [DecidableEq α] :
    ∀ (l : List (α × β)) (k : α) (v : β) (p : α × β), p ∈ aset l k v →
      p ∈ l ∨ p.2 = v := by
  intro l
  induction l with
  | nil => intro k v p h; simp [aset] at h
  | cons q rest ih =>
    intro k v p h
    obtain ⟨a, b⟩ := q
    by_cases ha : a = k
    · simp only [aset, if_pos ha] at h
      rcases List.mem_cons.mp h with h | h
      · subst h; right; rfl
      · left; exact List.mem_cons_of_mem _ h
    · simp only [aset, if_neg ha] at h
      rcases List.mem_cons.mp h with h | h
      · subst h; left; exact List.mem_cons_self _ _
      · rcases ih k v p h with h | h
        · left; exact List.mem_cons_of_mem _ h
        · right; exact h

theorem mem_aremove {α β : Type} [DecidableEq α] :
    ∀ (l : List (α × β)) (k : α) (p : α × β), p ∈ aremove l k → p ∈ l := by
  intro l
  induction l with
  | nil => intro k p h; simp [aremove] at h
  | cons q rest ih =>
    intro k p h
    obtain ⟨a, b⟩ := q
    by_cases ha : a = k
    · simp only [aremove, if_pos ha] at h
      exact List.mem_cons_of_mem _ h
    · simp only [aremove, if_neg ha] at h
      rcases List.mem_cons.mp h with h | h
      · subst h; exact List.mem_cons_self _ _
      · exact List.mem_cons_of_mem _ (ih k p h)

theorem InvRC_aset (st : DataState) (id : Int) (d : AdlbDatum)
    (h : InvRC st) (hr : 0 ≤ d.read_refcount) (hw : 0 ≤ d.write_refcount) :
    InvRC { st with tds := aset st.tds id d } := by
  intro p hp
  rcases mem_aset st.tds id d p hp with hp | hp
  · exact h p hp
  · rw [hp]; exact ⟨hr, hw⟩

theorem InvRC_aremove (st : DataState) (id : Int) (h : InvRC st) :
    InvRC { st with tds := aremove st.tds id } := by
  intro p hp
  exact h p (mem_aremove st.tds id p hp)


theorem cleanup_refs_with_inv
    (recurse : DataState → Int → Refcounts → Refcounts →
      DataState × Except DataCode RCRes)
    (hrec : ∀ st r c sc, InvRC st → InvRC (recurse st r c sc).1) :
    ∀ (rs : List Int) (st : DataState), InvRC st →
      InvRC (cleanup_refs_with recurse st rs).1 := by
  intro rs
  induction rs with
  | nil => intro st h; exact h
  | cons r rest ih =>
    intro st h
    have h1 := hrec st r ⟨-1, 0⟩ ADLB_NO_RC h
    simp only [cleanup_refs_with]
    cases hx : recurse st r ⟨-1, 0⟩ ADLB_NO_RC with
    | mk st1 res =>
      rw [hx] at h1
      cases res with
      | error e => exact h1
      | ok u => exact ih st1 h1

theorem datum_gc_with_inv
    (recurse : DataState → Int → Refcounts → Refcounts →
      DataState × Except DataCode RCRes)
    (hrec : ∀ st r c sc, InvRC st → InvRC (recurse st r c sc).1)
    (st : DataState) (id : Int) (d : AdlbDatum) (scav : Refcounts)
    (h : InvRC st) : InvRC (datum_gc_with recurse st id d scav).1 := by
  simp only [datum_gc_with]
  split
  · exact h
  · have hcl : InvRC ((if d.set ∧ ADLB_RC_IS_NULL scav then
        cleanup_refs_with recurse st (storageReferands d.data)
      else (st, .ok ())) : DataState × Except DataCode Unit).1 := by
      split
      · exact cleanup_refs_with_inv recurse hrec _ st h
      · exact h
    split
    · rename_i st1 e heq
      rw [heq] at hcl
      exact hcl
    · rename_i st1 u heq
      rw [heq] at hcl
      split
      · exact hcl
      · exact InvRC_aremove _ id hcl


theorem ite_read_nonneg (c : Prop) (i : Decidable c) (x y : AdlbDatum)
    (hx : 0 ≤ x.read_refcount) (hy : 0 ≤ y.read_refcount) :
    0 ≤ (@ite _ c i x y).read_refcount := by
  by_cases hc : c
  · rw [if_pos hc]; exact hx
  · rw [if_neg hc]; exact hy

theorem ite_write_nonneg (c : Prop) (i : Decidable c) (x y : AdlbDatum)
    (hx : 0 ≤ x.write_refcount) (hy : 0 ≤ y.write_refcount) :
    0 ≤ (@ite _ c i x y).write_refcount := by
  by_cases hc : c
  · rw [if_pos hc]; exact hx
  · rw [if_neg hc]; exact hy

theorem ite_inv_helper (c : Prop) (i : Decidable c)
    (x y : DataState × Except DataCode RCRes)
    (hx : c → InvRC x.1) (hy : ¬ c → InvRC y.1) :
    InvRC (@ite _ c i x y).1 := by
  by_cases hc : c
  · rw [if_pos hc]; exact hx hc
  · rw [if_neg hc]; exact hy hc

theorem refcount_impl_f_inv (enabled : Bool) :
    ∀ (fuel : Nat) (st : DataState) (id : Int) (change scav : Refcounts),
      InvRC st → InvRC (refcount_impl_f enabled fuel st id change scav).1 := by
  intro fuel
  induction fuel with
  | zero => intro st id change scav h; exact h
  | succ n ih =>
    intro st id change scav h
    simp only [refcount_impl_f]
    split
    · exact h
    · rename_i d heq
      obtain ⟨hdr, hdw⟩ := h _ (mem_of_alookup _ _ _ heq)
      refine ite_inv_helper _ _ _ _ (fun _ => h) (fun hsc => ?_)
      refine ite_inv_helper _ _ _ _ (fun _ => h) (fun h2c => ?_)
      refine ite_inv_helper _ _ _ _ (fun _ => h) (fun h3c => ?_)
      refine ite_inv_helper _ _ _ _ (fun _ => h) (fun h4c => ?_)
      refine ite_inv_helper _ _ _ _ (fun _ => h) (fun h5c => ?_)
      have h1 : 0 ≤ (if change.read_refcount ≠ 0 then
          d.read_refcount + change.read_refcount else d.read_refcount) := by
        by_cases hz : change.read_refcount = 0
        · simp [hz]; exact hdr
        · simp only [if_pos hz]
          rcases not_and_or.mp h5c with hc | hc
          · exact absurd hz (not_not.mp (by simpa using hc))
          · rcases not_not.mp hc with ⟨hgt, hge⟩
            omega
      refine ite_inv_helper _ _ _ _ (fun _ => ?_) (fun h6c => ?_)
      · intro p hp
        rcases mem_aset _ _ _ p hp with hp | hp
        · exact h p hp
        · rw [hp]; exact ⟨h1, hdw⟩
      · have h2 : 0 ≤ (if change.write_refcount ≠ 0 then
            d.write_refcount + change.write_refcount
            else d.write_refcount) := by
          by_cases hz : change.write_refcount = 0
          · simp [hz]; exact hdw
          · simp only [if_pos hz]
            rcases not_and_or.mp h6c with hc | hc
            · exact absurd hz (not_not.mp (by simpa using hc))
            · rcases not_not.mp hc with ⟨hgt, hge⟩
              omega
        have hs2 : ∀ p2 : AdlbDatum,
            (0 ≤ p2.read_refcount ∧ 0 ≤ p2.write_refcount) →
            ∀ d1 : AdlbDatum,
            (0 ≤ d1.read_refcount ∧ 0 ≤ d1.write_refcount) →
            InvRC { st with tds := aset (aset st.tds id d1) id p2 } := by
          intro p2 hp2 d1q hd1q
          intro p hp
          rcases mem_aset _ _ _ p hp with hp | hp
          · rcases mem_aset _ _ _ p hp with hp | hp
            · exact h p hp
            · rw [hp]; exact hd1q
          · rw [hp]; exact hp2
        refine ite_inv_helper _ _ _ _ (fun hg => ?_) (fun hng => ?_)
        · split
          · rename_i stg u heq2
            have h7 := congrArg Prod.fst heq2
            rw [← h7]
            exact datum_gc_with_inv _ (fun a b c2 d2 e => ih a b c2 d2 e)
              _ _ _ _
              (hs2 _ ⟨ite_read_nonneg _ _ _ _ h1 h1, ite_write_nonneg _ _ _ _ h2 h2⟩ _ ⟨h1, hdw⟩)
          · rename_i stg e heq2
            have h7 := congrArg Prod.fst heq2
            rw [← h7]
            exact datum_gc_with_inv _ (fun a b c2 d2 e => ih a b c2 d2 e)
              _ _ _ _
              (hs2 _ ⟨ite_read_nonneg _ _ _ _ h1 h1, ite_write_nonneg _ _ _ _ h2 h2⟩ _ ⟨h1, hdw⟩)
        · exact hs2 _ ⟨ite_read_nonneg _ _ _ _ h1 h1, ite_write_nonneg _ _ _ _ h2 h2⟩ _ ⟨h1, hdw⟩


theorem refcount_impl_inv (enabled : Bool) (st : DataState) (id : Int)
    (change scav : Refcounts) (h : InvRC st) :
    InvRC (refcount_impl enabled st id change scav).1 :=
  refcount_impl_f_inv enabled _ st id change scav h

theorem data_reference_count_inv (enabled : Bool) (st : DataState)
    (id : Int) (change scav : Refcounts) (h : InvRC st) :
    InvRC (data_reference_count enabled st id change scav).1 := by
  simp only [data_reference_count]
  split
  · exact h
  · exact refcount_impl_inv enabled st id change scav h

theorem apply_rc_list_inv (enabled : Bool) (change : Refcounts) :
    ∀ (rs : List Int) (st : DataState), InvRC st →
      InvRC (apply_rc_list enabled st change rs).1 := by
  intro rs
  induction rs with
  | nil => intro st h; exact h
  | cons r rest ih =>
    intro st h
    have h1 := refcount_impl_inv enabled st r change ADLB_NO_RC h
    simp only [apply_rc_list]
    cases hx : refcount_impl enabled st r change ADLB_NO_RC with
    | mk st1 res =>
      rw [hx] at h1
      cases res with
      | error e => exact h1
      | ok u => exact ih st1 h1

theorem incr_rc_referand_inv (enabled : Bool) (st : DataState) (v : Value)
    (change : Refcounts) (h : InvRC st) :
    InvRC (incr_rc_referand enabled st v change).1 :=
  apply_rc_list_inv enabled change (valueReferands v) st h

theorem insert_notifications_inv (enabled : Bool) (st : DataState)
    (cid : Int) (sub : List Nat) (v : Value) (vt : Nat) (h : InvRC st) :
    InvRC (insert_notifications enabled st cid sub v vt).1 := by
  simp only [insert_notifications]
  cases hx0 : alookup st.container_references (cid, sub) with
  | none =>
    simp only []
    cases hx1 : alookup st.container_ix_listeners (cid, sub) with
    | some subList => exact fun p hp => h p hp
    | none => exact h
  | some refList =>
    simp only []
    split
    · rename_i st1 e1 heq
      have h7 := congrArg Prod.fst heq
      rw [← h7]
      by_cases he : enabled = true
      · simp only [if_pos he]
        cases hx : incr_rc_referand enabled
            { st with container_references :=
                aremove st.container_references (cid, sub) } v
            ⟨(refList.length : Int), 0⟩ with
        | mk st2 res =>
          have h2 := incr_rc_referand_inv enabled
            { st with container_references :=
                aremove st.container_references (cid, sub) } v
            ⟨(refList.length : Int), 0⟩ (fun p hp => h p hp)
          rw [hx] at h2
          cases res with
          | error e => exact h2
          | ok u =>
            dsimp only
            cases hy : refcount_impl enabled st2 cid ⟨-1, 0⟩ ADLB_NO_RC with
            | mk st3 res2 =>
              have h3 := refcount_impl_inv enabled st2 cid ⟨-1, 0⟩
                ADLB_NO_RC h2
              rw [hy] at h3
              cases res2 with
              | error e => exact h3
              | ok u2 => exact h3
      · simp only [if_neg he]
        exact fun p hp => h p hp
    · rename_i st1 references freed heq
      have h7 := congrArg Prod.fst heq
      dsimp only at h7
      have hst1 : InvRC st1 := by
        rw [← h7]
        by_cases he : enabled = true
        · simp only [if_pos he]
          cases hx : incr_rc_referand enabled
              { st with container_references :=
                  aremove st.container_references (cid, sub) } v
              ⟨(refList.length : Int), 0⟩ with
          | mk st2 res =>
            have h2 := incr_rc_referand_inv enabled
              { st with container_references :=
                  aremove st.container_references (cid, sub) } v
              ⟨(refList.length : Int), 0⟩ (fun p hp => h p hp)
            rw [hx] at h2
            cases res with
            | error e => exact h2
            | ok u =>
              dsimp only
              cases hy : refcount_impl enabled st2 cid ⟨-1, 0⟩ ADLB_NO_RC with
              | mk st3 res2 =>
                have h3 := refcount_impl_inv enabled st2 cid ⟨-1, 0⟩
                  ADLB_NO_RC h2
                rw [hy] at h3
                cases res2 with
                | error e => exact h3
                | ok u2 => exact h3
        · simp only [if_neg he]
          exact fun p hp => h p hp
      cases hz : alookup st1.container_ix_listeners (cid, sub) with
      | some subList => exact fun p hp => hst1 p hp
      | none => exact hst1


theorem data_create_inv (st : DataState) (id : Int) (type ek ev : Nat)
    (props : CreateProps) (h : InvRC st) :
    InvRC (data_create st id type ek ev props).1 := by
  simp only [data_create]
  split
  · exact h
  split
  · exact h
  split
  · exact h
  split
  · rename_i e heq
    intro p hp
    rcases List.mem_cons.mp hp with hp | hp
    · rw [hp]
      constructor <;> norm_num
    · exact h p hp
  · rename_i d1 heq
    simp only [datum_init_props] at heq
    split at heq
    · simp at heq
    · split at heq
      · simp at heq
      · rename_i hrneg hwneg
        rw [Except.ok.injEq] at heq
        subst heq
        intro p hp
        rcases mem_aset _ _ _ p hp with hp | hp
        · rcases List.mem_cons.mp hp with hp | hp
          · rw [hp]
            constructor <;> norm_num
          · exact h p hp
        · rw [hp]
          refine ⟨ite_read_nonneg _ _ _ _ (by dsimp only; omega)
              (ite_read_nonneg _ _ _ _ (by dsimp only; omega)
                (by dsimp only; omega)),
            ite_write_nonneg _ _ _ _ (by dsimp only; omega)
              (ite_write_nonneg _ _ _ _ (by dsimp only; omega)
                (by dsimp only; omega))⟩

theorem data_container_reference_inv (st : DataState) (cid : Int)
    (sub : List Nat) (reference : Int) (rt : Nat) (h : InvRC st) :
    InvRC (data_container_reference st cid sub reference rt).1 := by
  simp only [data_container_reference]
  split
  · exact h
  rename_i d heq
  split
  · split
    · exact h
    split
    · split <;> exact h
    split
    · exact h
    split
    · exact h
    split
    · exact fun p hp => h p hp
    split
    · exact h
    · rename_i hge
      intro p hp
      rcases mem_aset _ _ _ p hp with hp | hp
      · exact h p hp
      · rw [hp]
        obtain ⟨h1, h2⟩ := h _ (mem_of_alookup _ _ _ heq)
        simp only [not_lt] at hge
        exact ⟨by dsimp only; omega, h2⟩
  · exact h

theorem data_insert_atomic_inv (st : DataState) (cid : Int)
    (sub : List Nat) (h : InvRC st) :
    InvRC (data_insert_atomic st cid sub).1 := by
  simp only [data_insert_atomic]
  split
  · exact h
  · rename_i d heq
    split
    · exact h
    · split
      · split
        · exact h
        · intro p hp
          rcases mem_aset _ _ _ p hp with hp | hp
          · exact h p hp
          · rw [hp]
            exact h _ (mem_of_alookup _ _ _ heq)
      · exact h

theorem data_subscribe_inv (st : DataState) (id : Int)
    (sub : Option (List Nat)) (rank : Int) (h : InvRC st) :
    InvRC (data_subscribe st id sub rank).1 := by
  simp only [data_subscribe]
  split
  · exact h
  · rename_i d heq
    split
    · split
      · exact h
      · split
        · exact fun p hp => h p hp
        · exact fun p hp => h p hp
    · split
      · exact h
      · intro p hp
        rcases mem_aset _ _ _ p hp with hp | hp
        · exact h p hp
        · rw [hp]
          exact h _ (mem_of_alookup _ _ _ heq)

theorem data_lock_inv (st : DataState) (id : Int) (rank : Int)
    (h : InvRC st) : InvRC (data_lock st id rank).1 := by
  simp only [data_lock]
  split
  · exact h
  · split
    · exact h
    · exact fun p hp => h p hp

theorem data_unlock_inv (st : DataState) (id : Int) (h : InvRC st) :
    InvRC (data_unlock st id).1 := by
  simp only [data_unlock]
  split
  · exact h
  · exact fun p hp => h p hp

theorem data_unique_inv (st : DataState) (h : InvRC st) :
    InvRC (data_unique st).1 := by
  simp only [data_unique]
  split
  · exact h
  · exact fun p hp => h p hp


theorem data_store_inv (enabled : Bool) (st : DataState) (id : Int)
    (sub : Option (List Nat)) (buffer : List Nat) (type : Nat)
    (decr : Refcounts) (h : InvRC st) :
    InvRC (data_store enabled st id sub buffer type decr).1 := by
  simp only [data_store]
  split
  · exact h
  rename_i d heq
  split
  · exact h
  rename_i hwr
  have haset : ∀ d2 : AdlbDatum,
      0 ≤ d2.read_refcount → 0 ≤ d2.write_refcount →
      InvRC { st with tds := aset st.tds id d2 } := by
    intro d2 h1 h2 p hp
    rcases mem_aset _ _ _ p hp with hp | hp
    · exact h p hp
    · rw [hp]; exact ⟨h1, h2⟩
  obtain ⟨hdr, hdw⟩ := h _ (mem_of_alookup _ _ _ heq)
  split
  · rename_i st1 e1 heq2
    have h7 := congrArg Prod.fst heq2
    dsimp only at h7
    rw [← h7]
    split
    · split
      · exact h
      · split
        · exact h
        split
        · exact h
        · exact haset _ hdr hdw
      · exact h
    · split
      · split
        · exact h
        split
        · exact h
        · exact haset _ hdr hdw
      · split
        · exact h
        split
        · split
          · exact h
          split
          · exact h
          · split
            · split
              · exact h
              · exact insert_notifications_inv enabled _ id _ _ _
                  (haset _ hdr hdw)
            · exact insert_notifications_inv enabled _ id _ _ _
                (haset _ hdr hdw)
        · exact h
  · rename_i st1 references insert_notify freed heq2
    have h7 := congrArg Prod.fst heq2
    dsimp only at h7
    have hst1 : InvRC st1 := by
      rw [← h7]
      split
      · split
        · exact h
        · split
          · exact h
          split
          · exact h
          · exact haset _ hdr hdw
        · exact h
      · split
        · split
          · exact h
          split
          · exact h
          · exact haset _ hdr hdw
        · split
          · exact h
          split
          · split
            · exact h
            split
            · exact h
            · split
              · split
                · exact h
                · exact insert_notifications_inv enabled _ id _ _ _
                    (haset _ hdr hdw)
              · exact insert_notifications_inv enabled _ id _ _ _
                  (haset _ hdr hdw)
          · exact h
    split
    · exact hst1
    split
    · split
      · exact hst1
      · split
        · rename_i st2 e2 heq3
          have h8 := congrArg Prod.fst heq3
          dsimp only at h8
          rw [← h8]
          exact refcount_impl_inv enabled st1 id _ _ hst1
        · rename_i st2 res2 heq3
          have h8 := congrArg Prod.fst heq3
          dsimp only at h8
          rw [← h8]
          exact refcount_impl_inv enabled st1 id _ _ hst1
    · exact hst1


theorem applyOp_inv (enabled : Bool) (st : DataState) (op : Op)
    (h : InvRC st) : InvRC (applyOp enabled st op) := by
  cases op with
  | createOp id type ek ev props => exact data_create_inv st id type ek ev props h
  | storeOp id sub buffer type decr =>
    exact data_store_inv enabled st id sub buffer type decr h
  | refcountOp id change scav =>
    exact data_reference_count_inv enabled st id change scav h
  | containerRefOp id sub reference refType =>
    exact data_container_reference_inv st id sub reference refType h
  | insertAtomicOp id sub => exact data_insert_atomic_inv st id sub h
  | subscribeOp id sub rank => exact data_subscribe_inv st id sub rank h
  | lockOp id rank => exact data_lock_inv st id rank h
  | unlockOp id => exact data_unlock_inv st id h
  | uniqueOp => exact data_unique_inv st h

theorem runOps_inv :
    ∀ (ops : List (Bool × Op)) (st : DataState), InvRC st →
      InvRC (runOps st ops) := by
  intro ops
  induction ops with
  | nil => intro st h; exact h
  | cons p rest ih =>
    intro st h
    obtain ⟨enabled, op⟩ := p
    exact ih _ (applyOp_inv enabled st op h)

theorem data_init_inv (s i : Int) : InvRC (data_init s i) := by
  intro p hp
  simp [data_init] at hp


/-- C2 counterexample to "leaving the datum unchanged": a combined
change `⟨-1, -1⟩` on a datum with `read = 2, write = 0` is rejected
with `REFCOUNT_NEGATIVE` (the write component would go below zero),
but the read component has already been applied when the error
returns — the datum's read refcount has dropped from 2 to 1. -/
theorem C2_refcount_negative_counterexample :
    (data_reference_count true ((data_create (data_init 1 0) 5 typeINTEGER 0 0 ⟨2, 0, false⟩).1) 5 ⟨-1, -1⟩ ADLB_NO_RC).2 = .error .ERROR_REFCOUNT_NEGATIVE
    ∧ alookup ((data_create (data_init 1 0) 5 typeINTEGER 0 0 ⟨2, 0, false⟩).1).tds 5 =
        some ⟨typeINTEGER, 2, 0, false, false, .uninit, []⟩
    ∧ alookup (data_reference_count true ((data_create (data_init 1 0) 5 typeINTEGER 0 0 ⟨2, 0, false⟩).1) 5 ⟨-1, -1⟩ ADLB_NO_RC).1.tds 5 =
        some ⟨typeINTEGER, 1, 0, false, false, .uninit, []⟩ :=
  ⟨rfl, rfl, rfl⟩

/-- C2: every live datum keeps `read_refcount ≥ 0` and
`write_refcount ≥ 0` in every reachable state (any sequence of server
operations from a fresh store); creation rejects negative initial
counts with `INVALID`; a read change that would take the read count
below zero is rejected with `REFCOUNT_NEGATIVE` and the state is
unchanged; a pure write change that would take the write count below
zero is rejected with `REFCOUNT_NEGATIVE` and the state is unchanged.
(When a combined change fails only on its write component, the read
part has already been applied — see the counterexample.) -/
theorem C2_refcounts_nonneg :
    (∀ (s i : Int) (ops : List (Bool × Op)),
      InvRC (runOps (data_init s i) ops))
    ∧
    (∀ (d : AdlbDatum) (props : CreateProps),
      props.read_refcount < 0 ∨ props.write_refcount < 0 →
      datum_init_props d props = .error .ERROR_INVALID)
    ∧
    (∀ (st : DataState) (id : Int) (d : AdlbDatum) (change : Refcounts),
      alookup st.tds id = some d → d.permanent = false →
      change.read_refcount ≠ 0 →
      d.read_refcount + change.read_refcount < 0 →
      data_reference_count true st id change ADLB_NO_RC =
        (st, .error .ERROR_REFCOUNT_NEGATIVE))
    ∧
    (∀ (st : DataState) (id : Int) (d : AdlbDatum) (change : Refcounts),
      alookup st.tds id = some d →
      change.read_refcount = 0 → change.write_refcount ≠ 0 →
      d.write_refcount + change.write_refcount < 0 →
      data_reference_count true st id change ADLB_NO_RC =
        (st, .error .ERROR_REFCOUNT_NEGATIVE)) := by
  refine ⟨?_, ?_, ?_, ?_⟩
  · intro s i ops
    exact runOps_inv ops (data_init s i) (data_init_inv s i)
  · intro d props hneg
    rcases hneg with hneg | hneg
    · simp [datum_init_props, hneg]
    · by_cases hr : props.read_refcount < 0
      · simp [datum_init_props, hr]
      · simp [datum_init_props, hr, hneg]
  · intro st id d change hd hperm hz hlt
    have hng : ¬ (d.read_refcount > 0 ∧
        d.read_refcount + change.read_refcount ≥ 0) := by omega
    simp only [data_reference_count, hd, refcount_impl, refcount_impl_f]
    simp [ADLB_NO_RC, ADLB_RC_IS_NULL, hz, hperm, hng]
  · intro st id d change hd hz0 hwz hlt
    have hwc : ¬ (d.write_refcount > 0 ∧
        d.write_refcount + change.write_refcount ≥ 0) := by omega
    have hde : ({ d with read_refcount := d.read_refcount } : AdlbDatum) = d := rfl
    have hsa : aset st.tds id d = st.tds := aset_self _ _ _ hd
    have hse : ({ st with tds := st.tds } : DataState) = st := rfl
    simp only [data_reference_count, hd, refcount_impl, refcount_impl_f]
    simp [ADLB_NO_RC, ADLB_RC_IS_NULL, hz0, hwz, hwc, hde, hsa, hse]

theorem C2_refcounts_nonneg_witness :
    InvRC (runOps (data_init 1 0)
      [(true, .createOp 5 typeINTEGER 0 0 ⟨2, 0, false⟩),
       (true, .refcountOp 5 ⟨-1, -1⟩ ADLB_NO_RC)])
    ∧ datum_init_props ⟨typeINTEGER, 0, 0, false, false, .uninit, []⟩
        ⟨-1, 1, false⟩ = .error .ERROR_INVALID
    ∧ data_reference_count true
        ((data_create (data_init 1 0) 5 typeINTEGER 0 0 ⟨2, 0, false⟩).1)
        5 ⟨-3, 0⟩ ADLB_NO_RC =
      (((data_create (data_init 1 0) 5 typeINTEGER 0 0 ⟨2, 0, false⟩).1),
        .error .ERROR_REFCOUNT_NEGATIVE)
    ∧ data_reference_count true
        ((data_create (data_init 1 0) 5 typeINTEGER 0 0 ⟨2, 0, false⟩).1)
        5 ⟨0, -1⟩ ADLB_NO_RC =
      (((data_create (data_init 1 0) 5 typeINTEGER 0 0 ⟨2, 0, false⟩).1),
        .error .ERROR_REFCOUNT_NEGATIVE) :=
  ⟨C2_refcounts_nonneg.1 1 0 _,
   C2_refcounts_nonneg.2.1 _ _ (Or.inl (by decide)),
   C2_refcounts_nonneg.2.2.1
     ((data_create (data_init 1 0) 5 typeINTEGER 0 0 ⟨2, 0, false⟩).1) 5
     ⟨typeINTEGER, 2, 0, false, false, .uninit, []⟩ ⟨-3, 0⟩
     rfl rfl (by decide) (by decide),
   C2_refcounts_nonneg.2.2.2
     ((data_create (data_init 1 0) 5 typeINTEGER 0 0 ⟨2, 0, false⟩).1) 5
     ⟨typeINTEGER, 2, 0, false, false, .uninit, []⟩ ⟨0, -1⟩
     rfl rfl (by decide) (by decide)⟩
end ExmLb
